import Mathlib

/-
Verification development for the CSS property grammar compiler in
Source/WebCore/css/scripts/process-css-properties.py.

The development shallowly embeds, in order:
  - the Term model (post-conversion AST) with its fixup passes,
    keyword collection and value-list cross-validation;
  - the BNF parse-tree node model (multipliers, annotations, attributes),
    the lexer, the push-down parser state machine, and parse-tree to Term
    conversion;
  - the property registry ordering comparator and the canonical list
    construction;
  - the consumer-selection policy.

Python exceptions are modelled with Except; mutation is modelled by
returning updated values.  Functions keep the source names (snake case)
where possible; the word "annotation" is shortened to "annot" throughout.
-/

namespace CSSGen

/-- A directive inside an annotation block, e.g. settings-flag=cssFlag.
Mirrors BNFAnnotation.Directive (name plus list of values). -/
structure Directive where
  name : String
  value : List String
  deriving DecidableEq, Repr

/-- A trailing annotation block attached with at-paren syntax.
Mirrors BNFAnnotation (an ordered list of directives). -/
structure Annot where
  directives : List Directive
  deriving DecidableEq, Repr

/-- Python str() of a list of strings, used because the source stringifies
attribute value lists with str(self.value). -/
def pyListStr (xs : List String) : String :=
  "[" ++ String.intercalate ", " (xs.map (fun s => "\x27" ++ s ++ "\x27")) ++ "]"

/-- Python str() of an optional string (None renders as "None"). -/
def pyOptStr : Option String → String
  | some s => s
  | none => "None"

/-- Stringification of a directive, mirroring BNFAnnotation.Directive.__str__. -/
def Directive.str (d : Directive) : String :=
  if d.value ≠ [] then d.name ++ "=" ++ String.intercalate "," d.value else d.name

/-- Stringification of an annotation, mirroring BNFAnnotation.__str__. -/
def Annot.str (a : Annot) : String :=
  "@(" ++ String.intercalate " " (a.directives.map Directive.str) ++ ")"

/-- Mirrors the stringified_annotation properties: empty string when absent. -/
def annotStr : Option Annot → String
  | none => ""
  | some a => a.str

/-- A parameter of a ReferenceTerm: either a string parameter (name with
optional value list) or a numeric range parameter.  Mirrors
ReferenceTerm.StringParameter / ReferenceTerm.RangeParameter.  Range bounds
are kept as raw strings exactly as the parser produced them ("0", "inf",
"-inf", ...); the bounds are Options because the parse-tree attribute starts
out with None fields. -/
inductive RefParam where
  | stringParam (name : String) (value : List String)
  | rangeParam (min max : Option String)
  deriving DecidableEq, Repr

/-- Stringification of a reference parameter, mirroring the two
__str__ methods (a string parameter renders its value with Python str()
of the list; a range parameter renders as [min,max]). -/
def RefParam.str : RefParam → String
  | .stringParam n v => if v ≠ [] then n ++ "=" ++ pyListStr v else n
  | .rangeParam mn mx => "[" ++ pyOptStr mn ++ "," ++ pyOptStr mx ++ "]"

/-- The Term AST: one constructor per Term class of the source.
Fields that no modelled operation reads (comment text, the type and
single-value-optimization toggles of list-producing terms) are omitted;
each constructor keeps the fields the fixup passes, keyword collection,
validation and consumer selection read.  The settingsFlag fields hold the
value extracted from the settings-flag annotation directive at
construction time (the _process_annotation methods). -/
inductive Term where
  | matchOne (subterms : List Term) (settingsFlag : Option String)
  | matchOneOrMoreAnyOrder (subterms : List Term) (settingsFlag : Option String)
  | matchAllOrdered (subterms : List Term) (settingsFlag : Option String)
  | matchAllAnyOrder (subterms : List Term) (settingsFlag : Option String)
  | optionalTerm (subterm : Term)
  | unboundedRepetition (repeated : Term) (separator : Char) (min : Int) (settingsFlag : Option String)
  | boundedRepetition (repeated : Term) (separator : Char) (min max : Int)
      (defaultValue : Option String) (settingsFlag : Option String)
  | reference (name : String) (isInternal : Bool) (isFunctionReference : Bool)
      (parameters : List RefParam) (annot : Option Annot)
  | functionTerm (name : String) (parameterGroup : Term) (settingsFlag : Option String)
  | keyword (value : String) (aliasedTo : Option String) (settingsFlag : Option String)
      (status : Option String)
  | literal (value : Option String)

/-- Names of the builtin reference schemas registered in
ReferenceTerm.builtins.  A constructed ReferenceTerm is builtin exactly
when its name is one of these (construction would have raised on invalid
parameters for a builtin name). -/
def builtinNames : List String :=
  ["angle", "length", "length-percentage", "time", "integer", "number", "percentage",
   "resolution", "number-or-percentage-resolved-to-number", "position", "color", "image",
   "string", "custom-ident", "dashed-ident", "url", "feature-tag-value",
   "variation-tag-value", "unicode-range-token"]

/-- Mirrors ReferenceTerm.is_builtin (builtin is not None after construction). -/
def isBuiltinName (name : String) : Bool :=
  builtinNames.contains name

/-- Stringification of a reference term, mirroring ReferenceTerm.__str__
(also BNFReferenceNode.__str__ without multipliers).  This string is the
lookup key used by the fixup pass against the shared-rule table. -/
def referenceStr (name : String) (isInternal isFunctionReference : Bool)
    (ps : List RefParam) (an : Option Annot) : String :=
  let nm := if isFunctionReference then name ++ "()" else name
  let base := String.intercalate " " (nm :: ps.map RefParam.str)
  (if isInternal then "<<" ++ base ++ ">>" else "<" ++ base ++ ">") ++ annotStr an

/-- Shared grammar rule table: rule name (e.g. "<alpha-value>") to the
root term of the rule's grammar.  Mirrors SharedGrammarRules.rules_by_name
composed with .grammar.root_term. -/
abbrev RuleTable := List (String × Term)

/-- Association-list lookup into the shared-rule table (rules_by_name). -/
def RuleTable.lookup_rule (rules : RuleTable) (key : String) : Option Term :=
  rules.lookup key

/-- Mirrors MatchOneTerm.simplify: nested MatchOne subterms are flattened
one level in place; a nested MatchOne that carries a settings flag is a
hard error.  The source iterates left to right and raises at the first
flagged nested MatchOne. -/
def MatchOneTerm.simplify : List Term → Except String (List Term)
  | [] => pure []
  | t :: ts =>
    match t with
    | .matchOne _ (some _) =>
      .error "Simplifying a MatchOneTerm with a settings flag is not yet supported due to inability to merge settings flags down from MatchOneTerm to its subterms on simplification."
    | .matchOne sub none => do
      let rest ← MatchOneTerm.simplify ts
      pure (sub ++ rest)
    | _ => do
      let rest ← MatchOneTerm.simplify ts
      pure (t :: rest)

mutual

/-- Mirrors the perform_fixups methods of the Term classes.  A reference
whose stringified form is a key of the shared-rule table is replaced by the
fixup of the rule's root term (the source recurses into the replacement);
the fuel bounds that replacement recursion, which in the source does not
terminate on cyclic rule tables.  Composite terms fix up their subterms,
MatchOne additionally re-simplifies, and every list-shaped term collapses
to its sole subterm when exactly one remains. -/
def Term.perform_fixups (rules : RuleTable) (fuel : Nat) : Term → Except String Term
  | .matchOne subterms flag => do
    let fixed ← Term.perform_fixups_list rules fuel subterms
    let simplified ← MatchOneTerm.simplify fixed
    match simplified with
    | [t] => pure t
    | ts => pure (.matchOne ts flag)
  | .matchOneOrMoreAnyOrder subterms flag => do
    let fixed ← Term.perform_fixups_list rules fuel subterms
    match fixed with
    | [t] => pure t
    | ts => pure (.matchOneOrMoreAnyOrder ts flag)
  | .matchAllOrdered subterms flag => do
    let fixed ← Term.perform_fixups_list rules fuel subterms
    match fixed with
    | [t] => pure t
    | ts => pure (.matchAllOrdered ts flag)
  | .matchAllAnyOrder subterms flag => do
    let fixed ← Term.perform_fixups_list rules fuel subterms
    match fixed with
    | [t] => pure t
    | ts => pure (.matchAllAnyOrder ts flag)
  | .optionalTerm sub => do
    let sub2 ← Term.perform_fixups rules fuel sub
    pure (.optionalTerm sub2)
  | .unboundedRepetition r sep mn flag => do
    let r2 ← Term.perform_fixups rules fuel r
    pure (.unboundedRepetition r2 sep mn flag)
  | .boundedRepetition r sep mn mx dflt flag => do
    let r2 ← Term.perform_fixups rules fuel r
    pure (.boundedRepetition r2 sep mn mx dflt flag)
  | .reference name isInt isFn ps an =>
    match RuleTable.lookup_rule rules (referenceStr name isInt isFn ps an) with
    | some replacement =>
      match fuel with
      | 0 => .error "shared grammar rule replacement recursion exhausted"
      | n + 1 => Term.perform_fixups rules n replacement
    | none => pure (.reference name isInt isFn ps an)
  | .functionTerm name pg flag => do
    let pg2 ← Term.perform_fixups rules fuel pg
    pure (.functionTerm name pg2 flag)
  | .keyword v al sf st => pure (.keyword v al sf st)
  | .literal v => pure (.literal v)

/-- Fixup of a list of subterms, left to right (the source maps in order
and the first exception propagates). -/
def Term.perform_fixups_list (rules : RuleTable) (fuel : Nat) :
    List Term → Except String (List Term)
  | [] => pure []
  | t :: ts => do
    let t2 ← Term.perform_fixups rules fuel t
    let ts2 ← Term.perform_fixups_list rules fuel ts
    pure (t2 :: ts2)

end

/-- A declared value of a property (the entries of its "values" array).
Mirrors the Value class fields read by the modelled operations: the value
string and its settings-flag / status gating. -/
structure Value where
  name : String
  settingsFlag : Option String
  status : Option String
  deriving DecidableEq, Repr

/-- Mirrors Value._build_keyword_term: a KeywordTerm carrying the value's
settings flag and status (the comment field is not modelled). -/
def Value.keyword_term (v : Value) : Term :=
  .keyword v.name none v.settingsFlag v.status

/-- Mirrors MatchOneTerm.from_values: one keyword subterm per value, in
order (the source uses compact_map, and keyword_term never yields None,
so every value contributes one subterm). -/
def MatchOneTerm.from_values (values : List Value) : Term :=
  .matchOne (values.map Value.keyword_term) none

mutual

/-- Mirrors the perform_fixups_for_values_references methods: an internal
reference literally named values is replaced by a MatchOne built from the
declared value list; composite terms recurse, MatchOne re-simplifies, and
list-shaped terms collapse to a sole remaining subterm. -/
def Term.perform_fixups_for_values_references (values : List Value) :
    Term → Except String Term
  | .matchOne subterms flag => do
    let fixed ← Term.perform_fixups_for_values_references_list values subterms
    let simplified ← MatchOneTerm.simplify fixed
    match simplified with
    | [t] => pure t
    | ts => pure (.matchOne ts flag)
  | .matchOneOrMoreAnyOrder subterms flag => do
    let fixed ← Term.perform_fixups_for_values_references_list values subterms
    match fixed with
    | [t] => pure t
    | ts => pure (.matchOneOrMoreAnyOrder ts flag)
  | .matchAllOrdered subterms flag => do
    let fixed ← Term.perform_fixups_for_values_references_list values subterms
    match fixed with
    | [t] => pure t
    | ts => pure (.matchAllOrdered ts flag)
  | .matchAllAnyOrder subterms flag => do
    let fixed ← Term.perform_fixups_for_values_references_list values subterms
    match fixed with
    | [t] => pure t
    | ts => pure (.matchAllAnyOrder ts flag)
  | .optionalTerm sub => do
    let sub2 ← Term.perform_fixups_for_values_references values sub
    pure (.optionalTerm sub2)
  | .unboundedRepetition r sep mn flag => do
    let r2 ← Term.perform_fixups_for_values_references values r
    pure (.unboundedRepetition r2 sep mn flag)
  | .boundedRepetition r sep mn mx dflt flag => do
    let r2 ← Term.perform_fixups_for_values_references values r
    pure (.boundedRepetition r2 sep mn mx dflt flag)
  | .reference name isInt isFn ps an =>
    if isInt = true ∧ name = "values" then pure (MatchOneTerm.from_values values)
    else pure (.reference name isInt isFn ps an)
  | .functionTerm name pg flag => do
    let pg2 ← Term.perform_fixups_for_values_references values pg
    pure (.functionTerm name pg2 flag)
  | .keyword v al sf st => pure (.keyword v al sf st)
  | .literal v => pure (.literal v)

/-- Values-reference fixup over a subterm list, left to right. -/
def Term.perform_fixups_for_values_references_list (values : List Value) :
    List Term → Except String (List Term)
  | [] => pure []
  | t :: ts => do
    let t2 ← Term.perform_fixups_for_values_references values t
    let ts2 ← Term.perform_fixups_for_values_references_list values ts
    pure (t2 :: ts2)

end

mutual

/-- Mirrors the supported_keywords properties: the keyword names reachable
through the tree.  The source returns sets built by union; the model
returns the concatenation list, which has the same membership. -/
def Term.supported_keywords : Term → List String
  | .matchOne ts _ => Term.supported_keywords_list ts
  | .matchOneOrMoreAnyOrder ts _ => Term.supported_keywords_list ts
  | .matchAllOrdered ts _ => Term.supported_keywords_list ts
  | .matchAllAnyOrder ts _ => Term.supported_keywords_list ts
  | .optionalTerm sub => Term.supported_keywords sub
  | .unboundedRepetition r _ _ _ => Term.supported_keywords r
  | .boundedRepetition r _ _ _ _ _ => Term.supported_keywords r
  | .reference _ _ _ _ _ => []
  | .functionTerm _ pg _ => Term.supported_keywords pg
  | .keyword v _ _ _ => [v]
  | .literal _ => []

/-- Keyword collection over a subterm list. -/
def Term.supported_keywords_list : List Term → List String
  | [] => []
  | t :: ts => Term.supported_keywords t ++ Term.supported_keywords_list ts

end

mutual

/-- Mirrors the has_non_builtin_reference_terms properties: true when any
reachable reference term is not a builtin. -/
def Term.has_non_builtin_reference_terms : Term → Bool
  | .matchOne ts _ => Term.has_non_builtin_reference_terms_list ts
  | .matchOneOrMoreAnyOrder ts _ => Term.has_non_builtin_reference_terms_list ts
  | .matchAllOrdered ts _ => Term.has_non_builtin_reference_terms_list ts
  | .matchAllAnyOrder ts _ => Term.has_non_builtin_reference_terms_list ts
  | .optionalTerm sub => Term.has_non_builtin_reference_terms sub
  | .unboundedRepetition r _ _ _ => Term.has_non_builtin_reference_terms r
  | .boundedRepetition r _ _ _ _ _ => Term.has_non_builtin_reference_terms r
  | .reference name _ _ _ _ => !isBuiltinName name
  | .functionTerm _ pg _ => Term.has_non_builtin_reference_terms pg
  | .keyword _ _ _ _ => false
  | .literal _ => false

/-- Disjunction of has_non_builtin_reference_terms over a subterm list. -/
def Term.has_non_builtin_reference_terms_list : List Term → Bool
  | [] => false
  | t :: ts => Term.has_non_builtin_reference_terms t || Term.has_non_builtin_reference_terms_list ts

end

/-- Container for the name and root term of a grammar (shared rules and
property grammars).  Mirrors the Grammar class. -/
structure Grammar where
  name : String
  root_term : Term

/-- Mirrors Grammar.perform_fixups (root term replacement). -/
def Grammar.perform_fixups (rules : RuleTable) (fuel : Nat) (g : Grammar) :
    Except String Grammar := do
  let t ← Term.perform_fixups rules fuel g.root_term
  pure ⟨g.name, t⟩

/-- Structured error raised by Grammar.check_against_values; the payload
is the list of offending keyword names (the source interpolates them into
the exception message). -/
inductive CheckError where
  | keywordsOnlyInGrammar (names : List String)
  | keywordsOnlyInValues (names : List String)
  deriving DecidableEq, Repr

/-- Mirrors Grammar.check_against_values: when the grammar still contains
a non-builtin reference the check is skipped; otherwise the keywords
reachable through the tree are diffed against the declared value names and
a difference on either side is a hard error naming the offenders.  The
source takes frozenset differences; the model filters, preserving
membership. -/
def Grammar.check_against_values (g : Grammar) (values : List Value) :
    Except CheckError Unit :=
  if Term.has_non_builtin_reference_terms g.root_term then pure ()
  else
    let keywordsSupportedByGrammar := Term.supported_keywords g.root_term
    let keywordsListedAsValues := values.map Value.name
    let keywordsOnlyInGrammar :=
      keywordsSupportedByGrammar.filter (fun k => !keywordsListedAsValues.contains k)
    if keywordsOnlyInGrammar ≠ [] then .error (.keywordsOnlyInGrammar keywordsOnlyInGrammar)
    else
      let keywordsOnlyInValues :=
        keywordsListedAsValues.filter (fun k => !keywordsSupportedByGrammar.contains k)
      if keywordsOnlyInValues ≠ [] then .error (.keywordsOnlyInValues keywordsOnlyInValues)
      else pure ()

/-! Support for the idempotence of the fixup pass: terms produced by a
successful fixup are in a normal form that a second fixup maps to itself. -/

/-- Whether a term is a MatchOne (isinstance check of the simplify loop). -/
def Term.isMatchOne : Term → Bool
  | .matchOne _ _ => true
  | _ => false

/-- Decomposition of monadic bind on Except in terms of ok results. -/
theorem except_bind_ok {ε α β : Type} (e : Except ε α) (f : α → Except ε β) (b : β) :
    (e >>= f) = .ok b ↔ ∃ a, e = .ok a ∧ f a = .ok b := by
  cases e <;> simp [Bind.bind, Except.bind]

/-- Normal form of terms after a successful fixup pass: no reference
resolvable in the rule table remains, no list-shaped term is a singleton,
and no MatchOne has a MatchOne subterm. -/
inductive Norm (rules : RuleTable) : Term → Prop
  | matchOne (ts : List Term) (flag : Option String)
      (hsub : ∀ t ∈ ts, Norm rules t) (hlen : ts.length ≠ 1)
      (hnom : ∀ t ∈ ts, t.isMatchOne = false) : Norm rules (.matchOne ts flag)
  | matchOneOrMoreAnyOrder (ts : List Term) (flag : Option String)
      (hsub : ∀ t ∈ ts, Norm rules t) (hlen : ts.length ≠ 1) :
      Norm rules (.matchOneOrMoreAnyOrder ts flag)
  | matchAllOrdered (ts : List Term) (flag : Option String)
      (hsub : ∀ t ∈ ts, Norm rules t) (hlen : ts.length ≠ 1) :
      Norm rules (.matchAllOrdered ts flag)
  | matchAllAnyOrder (ts : List Term) (flag : Option String)
      (hsub : ∀ t ∈ ts, Norm rules t) (hlen : ts.length ≠ 1) :
      Norm rules (.matchAllAnyOrder ts flag)
  | optionalTerm (sub : Term) (h : Norm rules sub) : Norm rules (.optionalTerm sub)
  | unboundedRepetition (r : Term) (sep : Char) (mn : Int) (flag : Option String)
      (h : Norm rules r) : Norm rules (.unboundedRepetition r sep mn flag)
  | boundedRepetition (r : Term) (sep : Char) (mn mx : Int) (dflt flag : Option String)
      (h : Norm rules r) : Norm rules (.boundedRepetition r sep mn mx dflt flag)
  | reference (name : String) (isInt isFn : Bool) (ps : List RefParam) (an : Option Annot)
      (h : RuleTable.lookup_rule rules (referenceStr name isInt isFn ps an) = none) :
      Norm rules (.reference name isInt isFn ps an)
  | functionTerm (name : String) (pg : Term) (flag : Option String)
      (h : Norm rules pg) : Norm rules (.functionTerm name pg flag)
  | keyword (v : String) (al sf st : Option String) : Norm rules (.keyword v al sf st)
  | literal (v : Option String) : Norm rules (.literal v)

/-- Simplify is the identity on lists with no MatchOne member. -/
theorem simplify_of_no_matchOne (ts : List Term)
    (h : ∀ t ∈ ts, t.isMatchOne = false) :
    MatchOneTerm.simplify ts = .ok ts := by
  induction ts with
  | nil => simp [MatchOneTerm.simplify, pure, Except.pure]
  | cons t ts ih =>
    have ht := h t (by simp)
    have hrest : MatchOneTerm.simplify ts = .ok ts := ih (fun u hu => h u (by simp [hu]))
    cases t <;>
      simp_all [MatchOneTerm.simplify, Term.isMatchOne, Bind.bind, Except.bind, pure, Except.pure]

/-- Rewrite: simplify on a flagged MatchOne head is the hard error. -/
theorem simplify_cons_matchOne_some (sub : List Term) (f : String) (ts : List Term) :
    MatchOneTerm.simplify (.matchOne sub (some f) :: ts) =
      .error "Simplifying a MatchOneTerm with a settings flag is not yet supported due to inability to merge settings flags down from MatchOneTerm to its subterms on simplification." := by
  simp [MatchOneTerm.simplify]

/-- Rewrite: simplify splices an unflagged MatchOne head one level. -/
theorem simplify_cons_matchOne_none (sub : List Term) (ts : List Term) :
    MatchOneTerm.simplify (.matchOne sub none :: ts) =
      (do
        let rest ← MatchOneTerm.simplify ts
        pure (sub ++ rest)) := by
  simp [MatchOneTerm.simplify]

/-- Rewrite: simplify keeps a non-MatchOne head. -/
theorem simplify_cons_other (t : Term) (ts : List Term) (h : t.isMatchOne = false) :
    MatchOneTerm.simplify (t :: ts) =
      (do
        let rest ← MatchOneTerm.simplify ts
        pure (t :: rest)) := by
  cases t <;> simp_all [MatchOneTerm.simplify, Term.isMatchOne]

/-- A successful simplify of a list of normal subterms yields normal
subterms none of which is a MatchOne. -/
theorem simplify_norm (rules : RuleTable) (ts ts2 : List Term)
    (hn : ∀ t ∈ ts, Norm rules t)
    (h : MatchOneTerm.simplify ts = .ok ts2) :
    (∀ t ∈ ts2, Norm rules t) ∧ (∀ t ∈ ts2, t.isMatchOne = false) := by
  induction ts generalizing ts2 with
  | nil =>
    simp [MatchOneTerm.simplify, pure, Except.pure] at h
    subst h
    simp
  | cons t ts ih =>
    have hhead := hn t (by simp)
    have hrest : ∀ u ∈ ts, Norm rules u := fun u hu => hn u (by simp [hu])
    by_cases hmo : t.isMatchOne = true
    · obtain ⟨sub, flag, rfl⟩ : ∃ sub flag, t = .matchOne sub flag := by
        cases t <;> simp [Term.isMatchOne] at hmo ⊢
      cases flag with
      | some f =>
        rw [simplify_cons_matchOne_some] at h
        exact absurd h (by simp)
      | none =>
        rw [simplify_cons_matchOne_none, except_bind_ok] at h
        obtain ⟨rest, hr, hcons⟩ := h
        obtain ⟨hr1, hr2⟩ := ih rest hrest hr
        cases hhead with
        | matchOne _ _ hsub hlen hnom =>
          simp only [pure, Except.pure, Except.ok.injEq] at hcons
          subst hcons
          refine ⟨fun u hu => ?_, fun u hu => ?_⟩
          · rcases List.mem_append.mp hu with h1 | h2
            · exact hsub u h1
            · exact hr1 u h2
          · rcases List.mem_append.mp hu with h1 | h2
            · exact hnom u h1
            · exact hr2 u h2
    · rw [simplify_cons_other t ts (by simpa using hmo), except_bind_ok] at h
      obtain ⟨rest, hr, hcons⟩ := h
      obtain ⟨hr1, hr2⟩ := ih rest hrest hr
      simp only [pure, Except.pure, Except.ok.injEq] at hcons
      subst hcons
      refine ⟨fun u hu => ?_, fun u hu => ?_⟩
      · rcases List.mem_cons.mp hu with h1 | h2
        · rw [h1]; exact hhead
        · exact hr1 u h2
      · rcases List.mem_cons.mp hu with h1 | h2
        · rw [h1]; simpa using hmo
        · exact hr2 u h2

/-- Every ok result of the fixup pass is in normal form. -/
theorem perform_fixups_ok_norm (rules : RuleTable) :
    ∀ (fuel : Nat) (t : Term), ∀ t2, Term.perform_fixups rules fuel t = .ok t2 → Norm rules t2 := by
  apply Term.perform_fixups.induct rules
    (fun fuel t => ∀ t2, Term.perform_fixups rules fuel t = .ok t2 → Norm rules t2)
    (fun fuel ts => ∀ ts2, Term.perform_fixups_list rules fuel ts = .ok ts2 → ∀ u ∈ ts2, Norm rules u)
  · intro fuel subterms flag hlist t2 h
    rw [Term.perform_fixups, except_bind_ok] at h
    obtain ⟨fixed, hfix, h⟩ := h
    rw [except_bind_ok] at h
    obtain ⟨simplified, hsimp, h⟩ := h
    have hfixnorm := hlist fixed hfix
    obtain ⟨hs1, hs2⟩ := simplify_norm rules fixed simplified hfixnorm hsimp
    cases simplified with
    | nil =>
      simp only [pure, Except.pure, Except.ok.injEq] at h
      subst h
      exact Norm.matchOne [] flag (by simp) (by simp) (by simp)
    | cons u rest =>
      cases rest with
      | nil =>
        simp only [pure, Except.pure, Except.ok.injEq] at h
        subst h
        exact hs1 u (by simp)
      | cons v rest2 =>
        simp only [pure, Except.pure, Except.ok.injEq] at h
        subst h
        exact Norm.matchOne _ flag hs1 (by simp) hs2
  · intro fuel subterms flag hlist t2 h
    rw [Term.perform_fixups, except_bind_ok] at h
    obtain ⟨fixed, hfix, h⟩ := h
    have hfixnorm := hlist fixed hfix
    cases fixed with
    | nil =>
      simp only [pure, Except.pure, Except.ok.injEq] at h
      subst h
      exact Norm.matchOneOrMoreAnyOrder [] flag (by simp) (by simp)
    | cons u rest =>
      cases rest with
      | nil =>
        simp only [pure, Except.pure, Except.ok.injEq] at h
        subst h
        exact hfixnorm u (by simp)
      | cons v rest2 =>
        simp only [pure, Except.pure, Except.ok.injEq] at h
        subst h
        exact Norm.matchOneOrMoreAnyOrder _ flag hfixnorm (by simp)
  · intro fuel subterms flag hlist t2 h
    rw [Term.perform_fixups, except_bind_ok] at h
    obtain ⟨fixed, hfix, h⟩ := h
    have hfixnorm := hlist fixed hfix
    cases fixed with
    | nil =>
      simp only [pure, Except.pure, Except.ok.injEq] at h
      subst h
      exact Norm.matchAllOrdered [] flag (by simp) (by simp)
    | cons u rest =>
      cases rest with
      | nil =>
        simp only [pure, Except.pure, Except.ok.injEq] at h
        subst h
        exact hfixnorm u (by simp)
      | cons v rest2 =>
        simp only [pure, Except.pure, Except.ok.injEq] at h
        subst h
        exact Norm.matchAllOrdered _ flag hfixnorm (by simp)
  · intro fuel subterms flag hlist t2 h
    rw [Term.perform_fixups, except_bind_ok] at h
    obtain ⟨fixed, hfix, h⟩ := h
    have hfixnorm := hlist fixed hfix
    cases fixed with
    | nil =>
      simp only [pure, Except.pure, Except.ok.injEq] at h
      subst h
      exact Norm.matchAllAnyOrder [] flag (by simp) (by simp)
    | cons u rest =>
      cases rest with
      | nil =>
        simp only [pure, Except.pure, Except.ok.injEq] at h
        subst h
        exact hfixnorm u (by simp)
      | cons v rest2 =>
        simp only [pure, Except.pure, Except.ok.injEq] at h
        subst h
        exact Norm.matchAllAnyOrder _ flag hfixnorm (by simp)
  · intro fuel sub ih t2 h
    rw [Term.perform_fixups, except_bind_ok] at h
    obtain ⟨sub2, hsub, h⟩ := h
    simp only [pure, Except.pure, Except.ok.injEq] at h
    subst h
    exact Norm.optionalTerm sub2 (ih sub2 hsub)
  · intro fuel r sep mn flag ih t2 h
    rw [Term.perform_fixups, except_bind_ok] at h
    obtain ⟨r2, hr, h⟩ := h
    simp only [pure, Except.pure, Except.ok.injEq] at h
    subst h
    exact Norm.unboundedRepetition r2 sep mn flag (ih r2 hr)
  · intro fuel r sep mn mx dflt flag ih t2 h
    rw [Term.perform_fixups, except_bind_ok] at h
    obtain ⟨r2, hr, h⟩ := h
    simp only [pure, Except.pure, Except.ok.injEq] at h
    subst h
    exact Norm.boundedRepetition r2 sep mn mx dflt flag (ih r2 hr)
  · intro name isInt isFn ps an replacement hlook t2 h
    rw [Term.perform_fixups] at h
    simp [hlook] at h
  · intro name isInt isFn ps an replacement hlook n ih t2 h
    rw [Term.perform_fixups] at h
    simp only [hlook] at h
    exact ih t2 h
  · intro fuel name isInt isFn ps an hlook t2 h
    rw [Term.perform_fixups] at h
    simp only [hlook, pure, Except.pure, Except.ok.injEq] at h
    subst h
    exact Norm.reference name isInt isFn ps an hlook
  · intro fuel name pg flag ih t2 h
    rw [Term.perform_fixups, except_bind_ok] at h
    obtain ⟨pg2, hpg, h⟩ := h
    simp only [pure, Except.pure, Except.ok.injEq] at h
    subst h
    exact Norm.functionTerm name pg2 flag (ih pg2 hpg)
  · intro fuel v al sf st t2 h
    rw [Term.perform_fixups] at h
    simp only [pure, Except.pure, Except.ok.injEq] at h
    subst h
    exact Norm.keyword v al sf st
  · intro fuel v t2 h
    rw [Term.perform_fixups] at h
    simp only [pure, Except.pure, Except.ok.injEq] at h
    subst h
    exact Norm.literal v
  · intro fuel ts2 h
    rw [Term.perform_fixups_list] at h
    simp only [pure, Except.pure, Except.ok.injEq] at h
    subst h
    simp
  · intro fuel t ts ih1 ih2 ts2 h
    rw [Term.perform_fixups_list, except_bind_ok] at h
    obtain ⟨t2, ht, h⟩ := h
    rw [except_bind_ok] at h
    obtain ⟨rest2, hrest, h⟩ := h
    simp only [pure, Except.pure, Except.ok.injEq] at h
    subst h
    intro u hu
    rcases List.mem_cons.mp hu with h1 | h2
    · rw [h1]; exact ih1 t2 ht
    · exact ih2 rest2 hrest u h2

/-- List fixup is the identity on lists whose members it maps to
themselves. -/
theorem fix_list_id (rules : RuleTable) (fuel : Nat) (ts : List Term)
    (h : ∀ t ∈ ts, Term.perform_fixups rules fuel t = .ok t) :
    Term.perform_fixups_list rules fuel ts = .ok ts := by
  induction ts with
  | nil => rw [Term.perform_fixups_list]; rfl
  | cons t ts ih =>
    rw [Term.perform_fixups_list, h t (by simp), ih (fun u hu => h u (by simp [hu]))]
    rfl

/-- A normal-form term is a fixed point of the fixup pass at any fuel. -/
theorem norm_perform_fixups_id (rules : RuleTable) (t : Term) (hn : Norm rules t) :
    ∀ fuel, Term.perform_fixups rules fuel t = .ok t := by
  induction hn with
  | matchOne ts flag hsub hlen hnom ih =>
    intro fuel
    rw [Term.perform_fixups, fix_list_id rules fuel ts (fun u hu => ih u hu fuel)]
    simp only [Bind.bind, Except.bind, simplify_of_no_matchOne ts hnom]
    match ts, hlen with
    | [], _ => rfl
    | u :: v :: rest, _ => rfl
  | matchOneOrMoreAnyOrder ts flag hsub hlen ih =>
    intro fuel
    rw [Term.perform_fixups, fix_list_id rules fuel ts (fun u hu => ih u hu fuel)]
    simp only [Bind.bind, Except.bind]
    match ts, hlen with
    | [], _ => rfl
    | u :: v :: rest, _ => rfl
  | matchAllOrdered ts flag hsub hlen ih =>
    intro fuel
    rw [Term.perform_fixups, fix_list_id rules fuel ts (fun u hu => ih u hu fuel)]
    simp only [Bind.bind, Except.bind]
    match ts, hlen with
    | [], _ => rfl
    | u :: v :: rest, _ => rfl
  | matchAllAnyOrder ts flag hsub hlen ih =>
    intro fuel
    rw [Term.perform_fixups, fix_list_id rules fuel ts (fun u hu => ih u hu fuel)]
    simp only [Bind.bind, Except.bind]
    match ts, hlen with
    | [], _ => rfl
    | u :: v :: rest, _ => rfl
  | optionalTerm sub h ih =>
    intro fuel
    rw [Term.perform_fixups, ih fuel]
    rfl
  | unboundedRepetition r sep mn flag h ih =>
    intro fuel
    rw [Term.perform_fixups, ih fuel]
    rfl
  | boundedRepetition r sep mn mx dflt flag h ih =>
    intro fuel
    rw [Term.perform_fixups, ih fuel]
    rfl
  | reference name isInt isFn ps an h =>
    intro fuel
    rw [Term.perform_fixups]
    simp [h, pure, Except.pure]
  | functionTerm name pg flag h ih =>
    intro fuel
    rw [Term.perform_fixups, ih fuel]
    rfl
  | keyword v al sf st => intro fuel; rw [Term.perform_fixups]; rfl
  | literal v => intro fuel; rw [Term.perform_fixups]; rfl

/-! Claim theorems for the Term-model portion. -/

/-- C1: check_against_values skips all validation when the finished tree
still contains a non-builtin reference; otherwise it errors exactly when
the keywords reachable through the tree differ, as a set, from the
declared value names, and the error payload lists exactly the keywords
present on the side it reports. -/
theorem check_against_values_spec (g : Grammar) (values : List Value) :
    (Term.has_non_builtin_reference_terms g.root_term = true →
      Grammar.check_against_values g values = .ok ()) ∧
    (Term.has_non_builtin_reference_terms g.root_term = false →
      (Grammar.check_against_values g values = .ok () ↔
        ∀ s, s ∈ Term.supported_keywords g.root_term ↔ s ∈ values.map Value.name)) ∧
    (∀ names, Grammar.check_against_values g values = .error (.keywordsOnlyInGrammar names) →
      names ≠ [] ∧
        ∀ s, s ∈ names ↔
          (s ∈ Term.supported_keywords g.root_term ∧ s ∉ values.map Value.name)) ∧
    (∀ names, Grammar.check_against_values g values = .error (.keywordsOnlyInValues names) →
      names ≠ [] ∧
        ∀ s, s ∈ names ↔
          (s ∈ values.map Value.name ∧ s ∉ Term.supported_keywords g.root_term)) := by
  by_cases hnb : Term.has_non_builtin_reference_terms g.root_term
  · have hok : Grammar.check_against_values g values = .ok () := by
      simp [Grammar.check_against_values, hnb, pure, Except.pure]
    refine ⟨fun _ => hok, ?_, ?_, ?_⟩
    · intro hfalse; rw [hnb] at hfalse; cases hfalse
    · intro names h; rw [hok] at h; cases h
    · intro names h; rw [hok] at h; cases h
  · rw [Bool.not_eq_true] at hnb
    refine ⟨?_, fun _ => ?_, fun names h => ?_, fun names h => ?_⟩
    · intro htrue; rw [hnb] at htrue; cases htrue
    · constructor
      · intro h s
        rw [Grammar.check_against_values] at h
        rw [hnb] at h
        simp only [Bool.false_eq_true, if_false] at h
        split at h
        · cases h
        · split at h
          · cases h
          · rename_i h1 h2
            rw [not_not, List.filter_eq_nil_iff] at h1 h2
            constructor
            · intro hs
              have := h1 s hs
              simpa [List.elem_iff] using this
            · intro hs
              have := h2 s hs
              simpa [List.elem_iff] using this
      · intro hiff
        rw [Grammar.check_against_values, hnb]
        simp only [Bool.false_eq_true, if_false]
        have h1 : (Term.supported_keywords g.root_term).filter
            (fun k => !(values.map Value.name).contains k) = [] := by
          rw [List.filter_eq_nil_iff]
          intro a ha
          simp [List.elem_iff, (hiff a).mp ha]
        have h2 : (values.map Value.name).filter
            (fun k => !(Term.supported_keywords g.root_term).contains k) = [] := by
          rw [List.filter_eq_nil_iff]
          intro a ha
          simp [List.elem_iff, (hiff a).mpr ha]
        split
        · rename_i hcond
          exact absurd h1 hcond
        · split
          · rename_i hcond2
            exact absurd h2 hcond2
          · rfl
    · rw [Grammar.check_against_values, hnb] at h
      simp only [Bool.false_eq_true, if_false] at h
      split at h
      · rename_i hne
        simp only [Except.error.injEq, CheckError.keywordsOnlyInGrammar.injEq] at h
        subst h
        refine ⟨hne, fun s => ?_⟩
        simp [List.mem_filter, List.elem_iff]
      · split at h
        · cases h
        · cases h
    · rw [Grammar.check_against_values, hnb] at h
      simp only [Bool.false_eq_true, if_false] at h
      split at h
      · cases h
      · split at h
        · rename_i hge hne
          simp only [Except.error.injEq, CheckError.keywordsOnlyInValues.injEq] at h
          subst h
          refine ⟨hne, fun s => ?_⟩
          simp [List.mem_filter, List.elem_iff]
        · cases h

/-- Concrete instantiation of check_against_values_spec: a pure keyword
grammar validates exactly against its own value list. -/
theorem check_against_values_spec_witness :
    Grammar.check_against_values
      ⟨"p", Term.matchOne [Term.keyword "auto" none none none,
                           Term.keyword "none" none none none] none⟩
      [⟨"none", none, none⟩, ⟨"auto", none, none⟩] = .ok () :=
  ((check_against_values_spec
      ⟨"p", Term.matchOne [Term.keyword "auto" none none none,
                           Term.keyword "none" none none none] none⟩
      [⟨"none", none, none⟩, ⟨"auto", none, none⟩]).2.1
    (by simp [Term.has_non_builtin_reference_terms,
              Term.has_non_builtin_reference_terms_list])).mpr
    (by
      intro s
      simp [Term.supported_keywords, Term.supported_keywords_list, Value.name]
      tauto)

/-- C2: for every grammar whose fixup pass succeeds, applying the fixup
pass a second time (with any recursion budget) returns the same tree
unchanged: no further reference replacement, MatchOne flattening or
singleton collapse happens. -/
theorem perform_fixups_idempotent (rules : RuleTable) (fuel fuel2 : Nat) (g g2 : Grammar)
    (h : Grammar.perform_fixups rules fuel g = .ok g2) :
    Grammar.perform_fixups rules fuel2 g2 = .ok g2 := by
  rw [Grammar.perform_fixups, except_bind_ok] at h
  obtain ⟨t2, ht, h⟩ := h
  simp only [pure, Except.pure, Except.ok.injEq] at h
  subst h
  rw [Grammar.perform_fixups]
  rw [norm_perform_fixups_id rules t2 (perform_fixups_ok_norm rules fuel g.root_term t2 ht) fuel2]
  rfl

/-- Concrete instantiation of perform_fixups_idempotent: a fixed-up tree
with a resolved shared-rule reference is untouched by a second pass. -/
theorem perform_fixups_idempotent_witness :
    Grammar.perform_fixups [] 0
      ⟨"p", Term.matchOne [Term.keyword "a" none none none,
                           Term.keyword "b" none none none] none⟩ =
      .ok ⟨"p", Term.matchOne [Term.keyword "a" none none none,
                               Term.keyword "b" none none none] none⟩ :=
  perform_fixups_idempotent [] 5 0
    ⟨"p", Term.matchOne [Term.matchOne [Term.keyword "a" none none none] none,
                         Term.keyword "b" none none none] none⟩
    ⟨"p", Term.matchOne [Term.keyword "a" none none none,
                         Term.keyword "b" none none none] none⟩
    (by
      simp [Grammar.perform_fixups, Term.perform_fixups, Term.perform_fixups_list,
            MatchOneTerm.simplify, RuleTable.lookup_rule, List.lookup,
            Bind.bind, Except.bind, pure, Except.pure])

/-- C3: the values-reference fixup replaces an internal reference named
values by a MatchOne with one Keyword subterm per declared value, in the
declared order, each keyword carrying the value's settings flag and
status. -/
theorem values_reference_expansion (values : List Value) (isFn : Bool)
    (ps : List RefParam) (an : Option Annot) :
    Term.perform_fixups_for_values_references values
        (.reference "values" true isFn ps an) =
      .ok (.matchOne (values.map Value.keyword_term) none) ∧
    (values.map Value.keyword_term).length = values.length ∧
    ∀ v, (Value.keyword_term v) =
      .keyword v.name none v.settingsFlag v.status := by
  refine ⟨?_, by simp, fun v => rfl⟩
  rw [Term.perform_fixups_for_values_references]
  simp [MatchOneTerm.from_values, pure, Except.pure]

/-- C5: MatchOne simplification errors exactly when a subterm is a
settings-flag-carrying MatchOne, and otherwise flattens each nested
MatchOne one level, in place, leaving other subterms untouched. -/
theorem match_one_simplify_spec (ts : List Term) :
    ((∃ e, MatchOneTerm.simplify ts = .error e) ↔
      ∃ sub f, Term.matchOne sub (some f) ∈ ts) ∧
    (∀ ts2, MatchOneTerm.simplify ts = .ok ts2 →
      ts2 = ts.flatMap (fun t =>
        match t with
        | .matchOne sub none => sub
        | t => [t])) := by
  induction ts with
  | nil =>
    constructor
    · constructor
      · rintro ⟨e, he⟩
        rw [MatchOneTerm.simplify] at he
        cases he
      · rintro ⟨sub, f, hmem⟩
        cases hmem
    · intro ts2 h
      rw [MatchOneTerm.simplify] at h
      simp only [pure, Except.pure, Except.ok.injEq] at h
      simp [← h]
  | cons t ts ih =>
    by_cases hmo : t.isMatchOne = true
    · obtain ⟨sub, flag, rfl⟩ : ∃ sub flag, t = .matchOne sub flag := by
        cases t <;> simp [Term.isMatchOne] at hmo ⊢
      cases flag with
      | some f =>
        constructor
        · constructor
          · intro _
            exact ⟨sub, f, by simp⟩
          · intro _
            exact ⟨_, by rw [simplify_cons_matchOne_some]⟩
        · intro ts2 h
          rw [simplify_cons_matchOne_some] at h
          cases h
      | none =>
        constructor
        · constructor
          · rintro ⟨e, he⟩
            rw [simplify_cons_matchOne_none] at he
            cases hrest : MatchOneTerm.simplify ts with
            | ok r => rw [hrest] at he; simp [Bind.bind, Except.bind, pure, Except.pure] at he
            | error e2 =>
              obtain ⟨sub2, f2, hmem⟩ := ih.1.mp ⟨e2, hrest⟩
              exact ⟨sub2, f2, by simp [hmem]⟩
          · rintro ⟨sub2, f2, hmem⟩
            rcases List.mem_cons.mp hmem with h1 | h2
            · cases h1
            · obtain ⟨e, he⟩ := ih.1.mpr ⟨sub2, f2, h2⟩
              exact ⟨e, by rw [simplify_cons_matchOne_none, he]; rfl⟩
        · intro ts2 h
          rw [simplify_cons_matchOne_none, except_bind_ok] at h
          obtain ⟨rest, hr, h⟩ := h
          simp only [pure, Except.pure, Except.ok.injEq] at h
          subst h
          simp [ih.2 rest hr]
    · rw [Bool.not_eq_true] at hmo
      have hne : ∀ sub f, t ≠ Term.matchOne sub (some f) := by
        rintro sub f rfl
        simp [Term.isMatchOne] at hmo
      constructor
      · constructor
        · rintro ⟨e, he⟩
          rw [simplify_cons_other t ts hmo] at he
          cases hrest : MatchOneTerm.simplify ts with
          | ok r => rw [hrest] at he; simp [Bind.bind, Except.bind, pure, Except.pure] at he
          | error e2 =>
            obtain ⟨sub2, f2, hmem⟩ := ih.1.mp ⟨e2, hrest⟩
            exact ⟨sub2, f2, by simp [hmem]⟩
        · rintro ⟨sub2, f2, hmem⟩
          rcases List.mem_cons.mp hmem with h1 | h2
          · exact absurd h1.symm (hne sub2 f2)
          · obtain ⟨e, he⟩ := ih.1.mpr ⟨sub2, f2, h2⟩
            exact ⟨e, by rw [simplify_cons_other t ts hmo, he]; rfl⟩
      · intro ts2 h
        rw [simplify_cons_other t ts hmo, except_bind_ok] at h
        obtain ⟨rest, hr, h⟩ := h
        simp only [pure, Except.pure, Except.ok.injEq] at h
        subst h
        have hflat : (fun u => match u with
            | Term.matchOne sub none => sub
            | u => [u]) t = [t] := by
          cases t <;> first
            | rfl
            | (rename_i sflag; cases sflag <;> simp_all [Term.isMatchOne])
        simp [ih.2 rest hr, hflat]

/-- Concrete instantiation of match_one_simplify_spec: a flagged nested
MatchOne makes simplification fail. -/
theorem match_one_simplify_spec_witness :
    ∃ e, MatchOneTerm.simplify
      [Term.matchOne [Term.keyword "a" none none none] (some "cssFlag")] = .error e :=
  (match_one_simplify_spec
      [Term.matchOne [Term.keyword "a" none none none] (some "cssFlag")]).1.mpr
    ⟨[Term.keyword "a" none none none], "cssFlag", by simp⟩

/-! Consumer selection (PropertyConsumer.make). -/

/-- Mirrors KeywordTerm.is_eligible_for_fast_path on the keyword
constructor: aliased keywords are not eligible. -/
def keyword_is_eligible_for_fast_path (aliasedTo : Option String) : Bool :=
  aliasedTo = none

/-- Mirrors Grammar.has_only_fast_path_keyword_terms: the root term is a
MatchOne and every subterm is a fast-path-eligible KeywordTerm. -/
def Grammar.has_only_fast_path_keyword_terms (g : Grammar) : Bool :=
  match g.root_term with
  | .matchOne ts _ =>
    ts.all (fun t =>
      match t with
      | .keyword _ al _ _ => keyword_is_eligible_for_fast_path al
      | _ => false)
  | _ => false

/-- Whether the root term is a ReferenceTerm (isinstance check of make). -/
def Term.isReferenceTerm : Term → Bool
  | .reference _ _ _ _ _ => true
  | _ => false

/-- The parsing-strategy variants (the PropertyConsumer subclasses). -/
inductive ConsumerVariant where
  | skip
  | custom
  | fastPathKeywordOnly
  | direct
  | generated
  deriving DecidableEq, Repr

/-- The codegen-properties fields that PropertyConsumer.make consults. -/
structure PropertyCodegen where
  longhands : Option (List String)
  skip_parsing : Bool
  parser_function : Option String
  parser_grammar : Option Grammar

/-- Python truthiness of the longhands field (None and the empty list are
falsy). -/
def pyTruthyList : Option (List String) → Bool
  | none => false
  | some l => l ≠ []

/-- Python truthiness of an optional string (None and "" are falsy). -/
def pyTruthyStr : Option String → Bool
  | none => false
  | some s => s ≠ ""

/-- Mirrors PropertyConsumer.make: Skip for shorthands-with-longhands or
skip-parser, Custom for parser-function, then for a parser grammar the
fast-path-keyword-only check, the direct-reference check, and the
generated default; properties with none of these raise. -/
def PropertyConsumer.make (p : PropertyCodegen) : Except String ConsumerVariant :=
  if pyTruthyList p.longhands || p.skip_parsing then pure .skip
  else if pyTruthyStr p.parser_function then pure .custom
  else
    match p.parser_grammar with
    | some g =>
      if g.has_only_fast_path_keyword_terms then pure .fastPathKeywordOnly
      else if g.root_term.isReferenceTerm then pure .direct
      else pure .generated
    | none =>
      .error "Invalid property definition. Style properties must either specify values or a custom parser."

/-- C4: for a property with a parser grammar that is not a
shorthand-with-longhands, not skip-parser and has no parser function,
exactly one variant is selected: FastPathKeywordOnly exactly when the
root term is a MatchOne all of whose subterms are non-aliased keywords;
otherwise Direct exactly when the root term is a Reference term;
otherwise Generated. -/
theorem consumer_selection_spec (p : PropertyCodegen) (g : Grammar)
    (hl : pyTruthyList p.longhands = false) (hs : p.skip_parsing = false)
    (hf : pyTruthyStr p.parser_function = false)
    (hg : p.parser_grammar = some g) :
    (Grammar.has_only_fast_path_keyword_terms g = true ↔
      ∃ ts flag, g.root_term = .matchOne ts flag ∧
        ∀ t ∈ ts, ∃ v sf st, t = .keyword v none sf st) ∧
    (PropertyConsumer.make p = .ok .fastPathKeywordOnly ↔
      Grammar.has_only_fast_path_keyword_terms g = true) ∧
    (Grammar.has_only_fast_path_keyword_terms g = false →
      (PropertyConsumer.make p = .ok .direct ↔ g.root_term.isReferenceTerm = true)) ∧
    (Grammar.has_only_fast_path_keyword_terms g = false →
      g.root_term.isReferenceTerm = false →
      PropertyConsumer.make p = .ok .generated) := by
  have hmake : PropertyConsumer.make p =
      (if g.has_only_fast_path_keyword_terms then pure .fastPathKeywordOnly
       else if g.root_term.isReferenceTerm then pure .direct
       else pure .generated) := by
    rw [PropertyConsumer.make, hl, hs, hf, hg]
    simp
  refine ⟨?_, ?_, ?_, ?_⟩
  · rw [Grammar.has_only_fast_path_keyword_terms]
    constructor
    · intro h
      match hroot : g.root_term with
      | .matchOne ts flag =>
        rw [hroot] at h
        refine ⟨ts, flag, rfl, fun t ht => ?_⟩
        have := (List.all_eq_true.mp h) t ht
        match t with
        | .keyword v al sf st =>
          simp only [keyword_is_eligible_for_fast_path, decide_eq_true_eq] at this
          exact ⟨v, sf, st, by rw [this]⟩
      | .matchOneOrMoreAnyOrder ts flag => rw [hroot] at h; cases h
      | .matchAllOrdered ts flag => rw [hroot] at h; cases h
      | .matchAllAnyOrder ts flag => rw [hroot] at h; cases h
      | .optionalTerm s => rw [hroot] at h; cases h
      | .unboundedRepetition r sep mn flag => rw [hroot] at h; cases h
      | .boundedRepetition r sep mn mx d flag => rw [hroot] at h; cases h
      | .reference n a b c d => rw [hroot] at h; cases h
      | .functionTerm n pg flag => rw [hroot] at h; cases h
      | .keyword v al sf st => rw [hroot] at h; cases h
      | .literal v => rw [hroot] at h; cases h
    · rintro ⟨ts, flag, hroot, hts⟩
      rw [hroot]
      rw [List.all_eq_true]
      intro t ht
      obtain ⟨v, sf, st, rfl⟩ := hts t ht
      simp [keyword_is_eligible_for_fast_path]
  · rw [hmake]
    constructor
    · intro h
      by_contra hno
      rw [Bool.not_eq_true] at hno
      rw [hno] at h
      simp only [Bool.false_eq_true, if_false] at h
      split at h <;> simp [pure, Except.pure] at h
    · intro h
      rw [h]
      rfl
  · intro hno
    rw [hmake, hno]
    simp only [Bool.false_eq_true, if_false]
    constructor
    · intro h
      by_contra hnr
      rw [Bool.not_eq_true] at hnr
      rw [hnr] at h
      simp [pure, Except.pure] at h
    · intro h
      rw [h]
      rfl
  · intro hno hnr
    rw [hmake, hno, hnr]
    rfl

/-- Concrete instantiation of consumer_selection_spec: a two-keyword
grammar selects the fast-path keyword-only consumer. -/
theorem consumer_selection_spec_witness :
    PropertyConsumer.make
      ⟨none, false, none,
       some ⟨"p", Term.matchOne [Term.keyword "auto" none none none,
                                 Term.keyword "none" none none none] none⟩⟩ =
      .ok .fastPathKeywordOnly :=
  ((consumer_selection_spec
      ⟨none, false, none,
       some ⟨"p", Term.matchOne [Term.keyword "auto" none none none,
                                 Term.keyword "none" none none none] none⟩⟩
      ⟨"p", Term.matchOne [Term.keyword "auto" none none none,
                           Term.keyword "none" none none none] none⟩
      rfl rfl rfl rfl).2.1).mpr
    (by simp [Grammar.has_only_fast_path_keyword_terms, keyword_is_eligible_for_fast_path])

/-! Registry ordering: the canonical properties-and-descriptors list. -/

/-- The logic of a logical-property-group membership. -/
inductive LPGLogic where
  | logical
  | physical
  deriving DecidableEq, Repr

/-- The registry-entry fields the ordering comparator reads.  Descriptor
entries have false priorities and no logical-property-group (the source
sets them to None). -/
structure PropEntry where
  name : String
  longhands : Option (List String)
  top_priority : Bool
  high_priority : Bool
  medium_priority : Bool
  sink_priority : Bool
  logic : Option LPGLogic
  deriving DecidableEq, Repr

/-- Whether the entry is in a logical property group with logic logical. -/
def PropEntry.is_logical (p : PropEntry) : Bool := p.logic == some .logical

/-- Whether the entry is in a logical property group with logic physical. -/
def PropEntry.is_physical (p : PropEntry) : Bool := p.logic == some .physical

/-- Mirrors StyleProperties._sort_with_prefixed_properties_last: names
starting with a dash sort last, then ascending name order. -/
def StyleProperties.sort_with_prefixed_properties_last (a b : PropEntry) : Int :=
  let aPre := a.name.startsWith "-"
  let bPre := b.name.startsWith "-"
  if aPre && !bPre then 1
  else if !aPre && bPre then -1
  else if a.name < b.name then -1
  else if a.name > b.name then 1
  else 0

/-- Mirrors StyleProperties._sort_by_descending_priority_and_name: the
comparator chain over shorthand, top, high and medium priority, the
logical and physical logical-property-group buckets, sink priority, and
finally the prefixed-name tiebreak. -/
def StyleProperties.sort_by_descending_priority_and_name (a b : PropEntry) : Int :=
  if a.longhands.isSome && !b.longhands.isSome then 1
  else if !a.longhands.isSome && b.longhands.isSome then -1
  else if a.top_priority && !b.top_priority then -1
  else if !a.top_priority && b.top_priority then 1
  else if a.high_priority && !b.high_priority then -1
  else if !a.high_priority && b.high_priority then 1
  else if a.medium_priority && !b.medium_priority then -1
  else if !a.medium_priority && b.medium_priority then 1
  else if a.is_logical && !b.is_logical then 1
  else if !a.is_logical && b.is_logical then -1
  else if a.is_physical && !b.is_physical then 1
  else if !a.is_physical && b.is_physical then -1
  else if a.sink_priority && !b.sink_priority then 1
  else if !a.sink_priority && b.sink_priority then -1
  else StyleProperties.sort_with_prefixed_properties_last a b

/-- Mirrors PropertiesAndDescriptors._compute_all_unique's deduplication
loop step: a descriptor whose name is already taken is skipped, otherwise
it is appended and its name recorded. -/
def dedup_step (acc : List PropEntry × List String) (d : PropEntry) :
    List PropEntry × List String :=
  if acc.2.contains d.name then acc else (acc.1 ++ [d], d.name :: acc.2)

/-- Mirrors PropertiesAndDescriptors._compute_all_unique: style properties
first, then descriptors not sharing a name with anything seen, then a
stable sort by the descending-priority-and-name comparator (Python sorted
with cmp_to_key; modelled with the stable mergeSort ordered by comparator
at most zero). -/
def PropertiesAndDescriptors.compute_all_unique
    (style descriptors : List PropEntry) : List PropEntry :=
  ((descriptors.foldl dedup_step (style, style.map PropEntry.name)).1).mergeSort
    (fun a b => decide (StyleProperties.sort_by_descending_priority_and_name a b ≤ 0))

/-- One lexicographic comparison step: strictly smaller first component,
or equal first components and the remainder relation. -/
def lexStep (x y : Nat) (rest : Prop) : Prop := x < y ∨ (x = y ∧ rest)

/-- Numeric rank of a boolean sort key (false before true). -/
def boolRank (b : Bool) : Nat := if b then 1 else 0

/-- The priority tier scale described by the spec: top, high, medium,
unspecified, logical-group-physical, logical-group-logical. -/
def tierRank (p : PropEntry) : Nat :=
  if p.top_priority then 0
  else if p.high_priority then 1
  else if p.medium_priority then 2
  else
    match p.logic with
    | none => 3
    | some .physical => 4
    | some .logical => 5

/-- The total order stated by the spec: shorthands after non-shorthands,
then the priority tier scale, then sink-priority last, then dash-prefixed
names last, then ascending name order. -/
def claimOrder (a b : PropEntry) : Prop :=
  lexStep (boolRank a.longhands.isSome) (boolRank b.longhands.isSome)
    (lexStep (tierRank a) (tierRank b)
      (lexStep (boolRank a.sink_priority) (boolRank b.sink_priority)
        (lexStep (boolRank (a.name.startsWith "-")) (boolRank (b.name.startsWith "-"))
          (a.name ≤ b.name))))

/-- The comparator's own key chain, one lexicographic step per if-pair of
the source comparator. -/
def codeKeyOrder (a b : PropEntry) : Prop :=
  lexStep (boolRank a.longhands.isSome) (boolRank b.longhands.isSome)
    (lexStep (boolRank !a.top_priority) (boolRank !b.top_priority)
      (lexStep (boolRank !a.high_priority) (boolRank !b.high_priority)
        (lexStep (boolRank !a.medium_priority) (boolRank !b.medium_priority)
          (lexStep (boolRank a.is_logical) (boolRank b.is_logical)
            (lexStep (boolRank a.is_physical) (boolRank b.is_physical)
              (lexStep (boolRank a.sink_priority) (boolRank b.sink_priority)
                (lexStep (boolRank (a.name.startsWith "-")) (boolRank (b.name.startsWith "-"))
                  (a.name ≤ b.name))))))))

/-- Tier flags are mutually exclusive (top/high/medium, and any of them
excludes logical-property-group membership).  The schema validation
enforces the priority exclusions; group membership never carries a
priority in the shipped database. -/
def wf_tier_flags (p : PropEntry) : Prop :=
  (p.top_priority = true → p.high_priority = false ∧ p.medium_priority = false ∧ p.logic = none) ∧
  (p.high_priority = true → p.medium_priority = false ∧ p.logic = none) ∧
  (p.medium_priority = true → p.logic = none)

/-- A bubble of the comparator that sends the true flag to the back is a
lexicographic step on the flag ranks. -/
theorem if_back_le (x y : Bool) (rest : Int) (P : Prop) (hrest : (rest ≤ 0) ↔ P) :
    ((if x && !y then (1 : Int) else if !x && y then -1 else rest) ≤ 0) ↔
      lexStep (boolRank x) (boolRank y) P := by
  cases x <;> cases y <;> simp [lexStep, boolRank, hrest]

/-- A bubble of the comparator that sends the true flag to the front is a
lexicographic step on the negated flag ranks. -/
theorem if_front_le (x y : Bool) (rest : Int) (P : Prop) (hrest : (rest ≤ 0) ↔ P) :
    ((if x && !y then (-1 : Int) else if !x && y then 1 else rest) ≤ 0) ↔
      lexStep (boolRank !x) (boolRank !y) P := by
  cases x <;> cases y <;> simp [lexStep, boolRank, hrest]

/-- The final name comparison is the string order. -/
theorem name_cmp_le (a b : String) :
    ((if a < b then (-1 : Int) else if a > b then 1 else 0) ≤ 0) ↔ a ≤ b := by
  rcases lt_trichotomy a b with h | h | h
  · simp [h, le_of_lt h]
  · simp [h, not_lt_of_le (le_of_eq h), le_of_eq h]
  · simp [h, not_lt_of_le (le_of_lt h), not_le_of_lt h, gt_iff_lt]

/-- The source comparator accepts (at most zero) exactly the key-chain
order. -/
theorem sort_cmp_le_iff (a b : PropEntry) :
    (StyleProperties.sort_by_descending_priority_and_name a b ≤ 0) ↔ codeKeyOrder a b := by
  rw [StyleProperties.sort_by_descending_priority_and_name,
      StyleProperties.sort_with_prefixed_properties_last]
  exact if_back_le _ _ _ _ (if_front_le _ _ _ _ (if_front_le _ _ _ _ (if_front_le _ _ _ _
    (if_back_le _ _ _ _ (if_back_le _ _ _ _ (if_back_le _ _ _ _ (if_back_le _ _ _ _
      (name_cmp_le _ _))))))))

/-- Lexicographic steps compose transitively. -/
theorem lexStep_trans {x y z : Nat} {P Q R : Prop}
    (h1 : lexStep x y P) (h2 : lexStep y z Q) (h : P → Q → R) : lexStep x z R := by
  rcases h1 with h1 | ⟨he1, hp⟩ <;> rcases h2 with h2 | ⟨he2, hq⟩
  · exact Or.inl (h1.trans h2)
  · exact Or.inl (he2 ▸ h1)
  · exact Or.inl (he1 ▸ h2)
  · exact Or.inr ⟨he1.trans he2, h hp hq⟩

/-- Lexicographic steps are total when the remainders are jointly total. -/
theorem lexStep_total (x y : Nat) (P Q : Prop) (h : P ∨ Q) :
    lexStep x y P ∨ lexStep y x Q := by
  rcases Nat.lt_trichotomy x y with h1 | h1 | h1
  · exact Or.inl (Or.inl h1)
  · rcases h with hp | hq
    · exact Or.inl (Or.inr ⟨h1, hp⟩)
    · exact Or.inr (Or.inr ⟨h1.symm, hq⟩)
  · exact Or.inr (Or.inl h1)

/-- Transitivity of the comparator key chain. -/
theorem codeKeyOrder_trans (a b c : PropEntry)
    (h1 : codeKeyOrder a b) (h2 : codeKeyOrder b c) : codeKeyOrder a c := by
  refine lexStep_trans h1 h2 (fun p q => ?_)
  refine lexStep_trans p q (fun p q => ?_)
  refine lexStep_trans p q (fun p q => ?_)
  refine lexStep_trans p q (fun p q => ?_)
  refine lexStep_trans p q (fun p q => ?_)
  refine lexStep_trans p q (fun p q => ?_)
  refine lexStep_trans p q (fun p q => ?_)
  refine lexStep_trans p q (fun p q => ?_)
  exact le_trans p q

/-- Totality of the comparator key chain. -/
theorem codeKeyOrder_total (a b : PropEntry) :
    codeKeyOrder a b ∨ codeKeyOrder b a := by
  refine lexStep_total _ _ _ _ ?_
  refine lexStep_total _ _ _ _ ?_
  refine lexStep_total _ _ _ _ ?_
  refine lexStep_total _ _ _ _ ?_
  refine lexStep_total _ _ _ _ ?_
  refine lexStep_total _ _ _ _ ?_
  refine lexStep_total _ _ _ _ ?_
  refine lexStep_total _ _ _ _ ?_
  exact le_total a.name b.name

/-- Under well-formed tier flags, an entry matches one of the six tier
profiles of the spec scale. -/
theorem wf_profiles (p : PropEntry) (hp : wf_tier_flags p) :
    (p.top_priority = true ∧ p.high_priority = false ∧ p.medium_priority = false ∧
      p.logic = none ∧ tierRank p = 0) ∨
    (p.top_priority = false ∧ p.high_priority = true ∧ p.medium_priority = false ∧
      p.logic = none ∧ tierRank p = 1) ∨
    (p.top_priority = false ∧ p.high_priority = false ∧ p.medium_priority = true ∧
      p.logic = none ∧ tierRank p = 2) ∨
    (p.top_priority = false ∧ p.high_priority = false ∧ p.medium_priority = false ∧
      p.logic = none ∧ tierRank p = 3) ∨
    (p.top_priority = false ∧ p.high_priority = false ∧ p.medium_priority = false ∧
      p.logic = some .physical ∧ tierRank p = 4) ∨
    (p.top_priority = false ∧ p.high_priority = false ∧ p.medium_priority = false ∧
      p.logic = some .logical ∧ tierRank p = 5) := by
  obtain ⟨h1, h2, h3⟩ := hp
  by_cases ht : p.top_priority = true
  · obtain ⟨hh, hm, hl⟩ := h1 ht
    simp [tierRank, ht, hh, hm, hl]
  · rw [Bool.not_eq_true] at ht
    by_cases hh : p.high_priority = true
    · obtain ⟨hm, hl⟩ := h2 hh
      simp [tierRank, ht, hh, hm, hl]
    · rw [Bool.not_eq_true] at hh
      by_cases hm : p.medium_priority = true
      · have hl := h3 hm
        simp [tierRank, ht, hh, hm, hl]
      · rw [Bool.not_eq_true] at hm
        match hl : p.logic with
        | none => simp [tierRank, ht, hh, hm, hl]
        | some .physical => simp [tierRank, ht, hh, hm, hl]
        | some .logical => simp [tierRank, ht, hh, hm, hl]

/-- Under well-formed tier flags, the comparator's five-bubble tier
section is the single lexicographic step on the spec tier scale. -/
theorem tier_chain_iff (a b : PropEntry) (P : Prop)
    (ha : wf_tier_flags a) (hb : wf_tier_flags b) :
    lexStep (boolRank !a.top_priority) (boolRank !b.top_priority)
      (lexStep (boolRank !a.high_priority) (boolRank !b.high_priority)
        (lexStep (boolRank !a.medium_priority) (boolRank !b.medium_priority)
          (lexStep (boolRank a.is_logical) (boolRank b.is_logical)
            (lexStep (boolRank a.is_physical) (boolRank b.is_physical) P)))) ↔
      lexStep (tierRank a) (tierRank b) P := by
  rcases wf_profiles a ha with ⟨h1, h2, h3, h4, h5⟩ | ⟨h1, h2, h3, h4, h5⟩ |
      ⟨h1, h2, h3, h4, h5⟩ | ⟨h1, h2, h3, h4, h5⟩ | ⟨h1, h2, h3, h4, h5⟩ |
      ⟨h1, h2, h3, h4, h5⟩ <;>
    rcases wf_profiles b hb with ⟨g1, g2, g3, g4, g5⟩ | ⟨g1, g2, g3, g4, g5⟩ |
        ⟨g1, g2, g3, g4, g5⟩ | ⟨g1, g2, g3, g4, g5⟩ | ⟨g1, g2, g3, g4, g5⟩ |
        ⟨g1, g2, g3, g4, g5⟩ <;>
      simp [lexStep, boolRank, PropEntry.is_logical, PropEntry.is_physical,
            h1, h2, h3, h4, h5, g1, g2, g3, g4, g5]

/-- Under well-formed tier flags the code order is the claimed order. -/
theorem codeKeyOrder_iff_claimOrder (a b : PropEntry)
    (ha : wf_tier_flags a) (hb : wf_tier_flags b) :
    codeKeyOrder a b ↔ claimOrder a b := by
  rw [codeKeyOrder, claimOrder]
  constructor
  · intro h
    refine lexStep_trans h (Or.inr ⟨rfl, trivial⟩) (fun p _ => ?_)
    exact (tier_chain_iff a b _ ha hb).mp p
  · intro h
    refine lexStep_trans h (Or.inr ⟨rfl, trivial⟩) (fun p _ => ?_)
    exact (tier_chain_iff a b _ ha hb).mpr p

/-- Members of the deduplication fold come from the accumulator or the
descriptor list. -/
theorem dedup_fold_subset (descriptors : List PropEntry) :
    ∀ (acc : List PropEntry × List String) (p : PropEntry),
      p ∈ (descriptors.foldl dedup_step acc).1 → p ∈ acc.1 ∨ p ∈ descriptors := by
  induction descriptors with
  | nil => intro acc p h; exact Or.inl h
  | cons d ds ih =>
    intro acc p h
    rw [List.foldl_cons] at h
    rcases ih (dedup_step acc d) p h with h1 | h1
    · rw [dedup_step] at h1
      split at h1
      · exact Or.inl h1
      · rcases List.mem_append.mp h1 with h2 | h2
        · exact Or.inl h2
        · exact Or.inr (by simp at h2; simp [h2])
    · exact Or.inr (by simp [h1])

/-- C9: the comparator orders entries by the spec's total order, and the
canonical list of all properties and descriptors is sorted by it:
shorthands after non-shorthands, then the tier scale top, high, medium,
unspecified, logical-group-physical, logical-group-logical, then
sink-priority last, then dash-prefixed names last, then ascending name
order. -/
theorem all_unique_sorted_spec :
    (∀ a b, wf_tier_flags a → wf_tier_flags b →
      ((StyleProperties.sort_by_descending_priority_and_name a b ≤ 0) ↔ claimOrder a b)) ∧
    (∀ style descriptors : List PropEntry,
      (∀ p ∈ style ++ descriptors, wf_tier_flags p) →
      List.Pairwise claimOrder
        (PropertiesAndDescriptors.compute_all_unique style descriptors)) := by
  constructor
  · intro a b ha hb
    exact (sort_cmp_le_iff a b).trans (codeKeyOrder_iff_claimOrder a b ha hb)
  · intro style descriptors hwf
    have htrans : ∀ (a b c : PropEntry),
        (decide (StyleProperties.sort_by_descending_priority_and_name a b ≤ 0)) = true →
        (decide (StyleProperties.sort_by_descending_priority_and_name b c ≤ 0)) = true →
        (decide (StyleProperties.sort_by_descending_priority_and_name a c ≤ 0)) = true := by
      intro a b c h1 h2
      rw [decide_eq_true_eq] at h1 h2 ⊢
      rw [sort_cmp_le_iff] at h1 h2 ⊢
      exact codeKeyOrder_trans a b c h1 h2
    have htotal : ∀ (a b : PropEntry),
        ((decide (StyleProperties.sort_by_descending_priority_and_name a b ≤ 0)) ||
         (decide (StyleProperties.sort_by_descending_priority_and_name b a ≤ 0))) = true := by
      intro a b
      rw [Bool.or_eq_true, decide_eq_true_eq, decide_eq_true_eq,
          sort_cmp_le_iff, sort_cmp_le_iff]
      exact codeKeyOrder_total a b
    have hsorted := @List.sorted_mergeSort _
      (fun a b => decide (StyleProperties.sort_by_descending_priority_and_name a b ≤ 0))
      htrans htotal
      ((descriptors.foldl dedup_step (style, style.map PropEntry.name)).1)
    rw [PropertiesAndDescriptors.compute_all_unique]
    refine List.Pairwise.imp_of_mem ?_ hsorted
    intro a b hma hmb hab
    rw [decide_eq_true_eq, sort_cmp_le_iff] at hab
    have hwf2 : ∀ p ∈ (descriptors.foldl dedup_step (style, style.map PropEntry.name)).1,
        wf_tier_flags p := by
      intro p hp
      rcases dedup_fold_subset descriptors _ p hp with h | h
      · exact hwf p (List.mem_append.mpr (Or.inl h))
      · exact hwf p (List.mem_append.mpr (Or.inr h))
    rw [List.mem_mergeSort] at hma hmb
    exact (codeKeyOrder_iff_claimOrder a b (hwf2 a hma) (hwf2 b hmb)).mp hab

/-- Concrete instantiation of all_unique_sorted_spec: a high-priority
property, a plain property and a shorthand are listed in sorted order. -/
theorem all_unique_sorted_spec_witness :
    List.Pairwise claimOrder
      (PropertiesAndDescriptors.compute_all_unique
        [⟨"background", some ["background-color"], false, false, false, false, none⟩,
         ⟨"color", none, false, true, false, false, none⟩,
         ⟨"margin-top", none, false, false, false, false, none⟩]
        [⟨"src", none, false, false, false, false, none⟩]) :=
  all_unique_sorted_spec.2
    [⟨"background", some ["background-color"], false, false, false, false, none⟩,
     ⟨"color", none, false, true, false, false, none⟩,
     ⟨"margin-top", none, false, false, false, false, none⟩]
    [⟨"src", none, false, false, false, false, none⟩]
    (by simp [wf_tier_flags])

/-! The BNF parse-tree node model: multipliers, repetition modifiers,
annotations and node kinds (section of the source around BNFNodeMultiplier
and the BNF*Node classes). -/

/-- The kinds of a repetition modifier (BNFRepetitionModifier.Kind). -/
inductive RepKind where
  | exact
  | atLeast
  | between
  deriving DecidableEq, Repr

/-- A repetition modifier under construction or completed: kind, min and
max start out unset (BNFRepetitionModifier.__init__). -/
structure RepMod where
  kind : Option RepKind
  min : Option Int
  max : Option Int
  deriving DecidableEq, Repr

/-- The kinds of a node multiplier (BNFNodeMultiplier.Kind). -/
inductive MultKind where
  | zeroOrOne
  | spaceZeroOrMore
  | spaceOneOrMore
  | spaceExact
  | spaceAtLeast
  | spaceBetween
  | commaOneOrMore
  | commaExact
  | commaAtLeast
  | commaBetween
  deriving DecidableEq, Repr

/-- A node multiplier: unset kind until a multiplier token arrives
(BNFNodeMultiplier.__init__). -/
structure NodeMultiplier where
  kind : Option MultKind
  range : Option RepMod
  annot : Option Annot
  deriving DecidableEq, Repr

/-- The empty multiplier every node starts with. -/
def NodeMultiplier.empty : NodeMultiplier := ⟨none, none, none⟩

/-- The input of BNFNodeMultiplier.add: either a completed repetition
modifier, or the literal text of a simple multiplier token. -/
inductive MultInput where
  | rep (r : RepMod)
  | simple (s : String)
  deriving DecidableEq, Repr

/-- Mirrors the Kind(value) enum construction on a simple multiplier
token; a value matching no kind is the ValueError the source raises. -/
def MultKind.ofSimple : String → Except String MultKind
  | "?" => pure .zeroOrOne
  | "*" => pure .spaceZeroOrMore
  | "+" => pure .spaceOneOrMore
  | "#" => pure .commaOneOrMore
  | s => .error ("not a valid BNFNodeMultiplier.Kind: " ++ s)

/-- Mirrors BNFNodeMultiplier.add: stacking on an annotated multiplier is
an error; a fresh multiplier takes a repetition modifier as the
space-separated counted kinds (silently ignoring a kind-less modifier,
as the source does) or a simple token via the Kind enum; the simple
kinds and all counted kinds refuse further stacking, except that a
comma-variant multiplier accepts a repetition modifier to become the
comma-separated counted kinds and refuses simple tokens. -/
def NodeMultiplier.add (m : NodeMultiplier) (input : MultInput) :
    Except String NodeMultiplier :=
  if m.annot.isSome then
    .error "Invalid to stack another multiplier on top of a multiplier that has already received an annotation."
  else
    match m.kind with
    | none =>
      match input with
      | .rep r =>
        match r.kind with
        | some .exact => pure { m with kind := some .spaceExact, range := some r }
        | some .atLeast => pure { m with kind := some .spaceAtLeast, range := some r }
        | some .between => pure { m with kind := some .spaceBetween, range := some r }
        | none => pure m
      | .simple s => do
        let k ← MultKind.ofSimple s
        pure { m with kind := some k }
    | some .zeroOrOne => .error "Invalid to stack another multiplier on top of the zero-or-one multiplier."
    | some .spaceZeroOrMore => .error "Invalid to stack another multiplier on top of the zero-or-more multiplier."
    | some .spaceOneOrMore => .error "Invalid to stack another multiplier on top of the one-or-more multiplier."
    | some .spaceExact => .error "Invalid to stack another multiplier on top of a range."
    | some .spaceAtLeast => .error "Invalid to stack another multiplier on top of a range."
    | some .spaceBetween => .error "Invalid to stack another multiplier on top of a range."
    | some .commaOneOrMore =>
      match input with
      | .rep r =>
        match r.kind with
        | some .exact => pure { m with kind := some .commaExact, range := some r }
        | some .atLeast => pure { m with kind := some .commaAtLeast, range := some r }
        | some .between => pure { m with kind := some .commaBetween, range := some r }
        | none => pure m
      | .simple _ => .error "Invalid to stack a non-range multiplier on top of the comma multiplier."
    | some .commaExact => .error "Invalid to stack another multiplier on top of a comma modifier range multiplier."
    | some .commaAtLeast => .error "Invalid to stack another multiplier on top of a comma modifier range multiplier."
    | some .commaBetween => .error "Invalid to stack another multiplier on top of a comma modifier range multiplier."

/-- Whether a directive name with a kind whitelist applies to a multiplier
kind, mirroring the SUPPORTED_DIRECTIVES table of
BNFNodeMultiplier.add_annotation (settings-flag applies everywhere). -/
def multDirectiveAllowed (name : String) (k : Option MultKind) : Option Bool :=
  if name = "no-single-item-opt" then
    some (k ∈ [some MultKind.spaceZeroOrMore, some MultKind.spaceOneOrMore,
               some MultKind.spaceAtLeast, some MultKind.spaceBetween,
               some MultKind.commaOneOrMore, some MultKind.commaAtLeast,
               some MultKind.commaBetween])
  else if name = "type" then
    some (k ∈ [some MultKind.spaceZeroOrMore, some MultKind.spaceOneOrMore,
               some MultKind.spaceBetween, some MultKind.spaceExact,
               some MultKind.commaOneOrMore, some MultKind.commaBetween,
               some MultKind.commaExact])
  else if name = "default" then
    some (k ∈ [some MultKind.spaceBetween, some MultKind.commaBetween])
  else if name = "settings-flag" then
    some true
  else
    none

/-- Mirrors BNFNodeMultiplier.add_annotation: a second annotation is an
error, every directive must be known and applicable to the multiplier's
kind. -/
def NodeMultiplier.add_annot (m : NodeMultiplier) (an : Annot) :
    Except String NodeMultiplier :=
  if m.annot.isSome then
    .error "Invalid to add an annotation to a multiplier node that already has an annotation."
  else do
    for d in an.directives do
      match multDirectiveAllowed d.name m.kind with
      | none => throw ("Unknown annotation directive for multiplier: " ++ d.name)
      | some false => throw ("Unsupported annotation directive for multiplier: " ++ d.name)
      | some true => pure ()
    pure { m with annot := some an }

/-- The grouping kinds (BNFGroupingNode.Kind). -/
inductive GroupingKind where
  | matchAllOrdered
  | matchOne
  | matchAllAnyOrder
  | matchOneOrMoreAnyOrder
  deriving DecidableEq, Repr

/-- Enum member name of a grouping kind (used in the combinator-mixing
error message, which suggests the locked kind by name). -/
def GroupingKind.enumName : GroupingKind → String
  | .matchAllOrdered => "MATCH_ALL_ORDERED"
  | .matchOne => "MATCH_ONE"
  | .matchAllAnyOrder => "MATCH_ALL_ANY_ORDER"
  | .matchOneOrMoreAnyOrder => "MATCH_ONE_OR_MORE_ANY_ORDER"

/-- An attribute of a reference node (BNFReferenceNode.StringAttribute /
RangeAttribute); range bounds start out unset. -/
inductive NodeAttr where
  | strAttr (name : String) (value : List String)
  | rangeAttr (min max : Option String)
  deriving DecidableEq, Repr

/-- The BNF parse-tree nodes.  A function node's parameter group is a
grouping node in the source whose own multiplier is never used, so it is
flattened to a kind and member list here; reference and literal nodes
start with an unset name and value. -/
inductive BNFNode where
  | grouping (kind : GroupingKind) (members : List BNFNode) (multiplier : NodeMultiplier)
      (isInitial : Bool) (annot : Option Annot)
  | functionNode (name : String) (paramKind : GroupingKind) (paramMembers : List BNFNode)
      (multiplier : NodeMultiplier) (annot : Option Annot)
  | referenceNode (name : Option String) (isInternal : Bool) (isFunctionReference : Bool)
      (attributes : List NodeAttr) (multiplier : NodeMultiplier) (annot : Option Annot)
  | keywordNode (keyword : String) (multiplier : NodeMultiplier) (annot : Option Annot)
  | literalNode (value : Option String) (multiplier : NodeMultiplier) (annot : Option Annot)

/-- Directive whitelist check for a grouping node, mirroring
BNFGroupingNode.add_annotation (per-kind sets, settings-flag anywhere). -/
def groupingDirectiveAllowed (name : String) (k : GroupingKind) : Option Bool :=
  if name = "no-single-item-opt" then
    some (k ∈ [GroupingKind.matchAllOrdered, GroupingKind.matchAllAnyOrder,
               GroupingKind.matchOneOrMoreAnyOrder])
  else if name = "preserve-order" then
    some (k ∈ [GroupingKind.matchAllAnyOrder, GroupingKind.matchOneOrMoreAnyOrder])
  else if name = "type" then
    some (k ∈ [GroupingKind.matchAllOrdered, GroupingKind.matchAllAnyOrder,
               GroupingKind.matchOneOrMoreAnyOrder])
  else if name = "settings-flag" then
    some true
  else
    none

/-- Mirrors the add_annotation methods of the five node classes: a second
annotation is always an error, and each class validates directive names
against its own whitelist (groupings per kind; functions and references
accept settings-flag; keywords accept aliased-to and settings-flag;
literals accept nothing). -/
def BNFNode.add_annot (n : BNFNode) (an : Annot) : Except String BNFNode :=
  match n with
  | .grouping kind members mult isInit old =>
    if old.isSome then
      .error "Invalid to add an annotation to a grouping node that already has an annotation."
    else do
      for d in an.directives do
        match groupingDirectiveAllowed d.name kind with
        | none => throw ("Unknown annotation directive for grouping: " ++ d.name)
        | some false => throw ("Unsupported annotation directive for grouping: " ++ d.name)
        | some true => pure ()
      pure (.grouping kind members mult isInit (some an))
  | .functionNode name pk pm mult old =>
    if old.isSome then
      .error "Invalid to add an annotation to a function node that already has an annotation."
    else do
      for d in an.directives do
        if d.name = "settings-flag" then pure ()
        else throw ("Unknown annotation directive for function node: " ++ d.name)
      pure (.functionNode name pk pm mult (some an))
  | .referenceNode name isInt isFn attrs mult old =>
    if old.isSome then
      .error "Invalid to add an annotation to a reference node that already has an annotation."
    else do
      for d in an.directives do
        if d.name = "settings-flag" then pure ()
        else throw ("Unknown annotation directive for reference node: " ++ d.name)
      pure (.referenceNode name isInt isFn attrs mult (some an))
  | .keywordNode kw mult old =>
    if old.isSome then
      .error "Invalid to add an annotation to a keyword node that already has an annotation."
    else do
      for d in an.directives do
        if d.name = "aliased-to" ∨ d.name = "settings-flag" then pure ()
        else throw ("Unknown annotation directive for keyword: " ++ d.name)
      pure (.keywordNode kw mult (some an))
  | .literalNode v mult old =>
    if old.isSome then
      .error "Invalid to add an annotation to a literal node that already has an annotation."
    else do
      for d in an.directives do
        throw ("Unknown annotation directive for literal: " ++ d.name)
      pure (.literalNode v mult (some an))

/-- Applies BNFNodeMultiplier.add to a node's multiplier in place. -/
def BNFNode.add_to_multiplier (n : BNFNode) (input : MultInput) : Except String BNFNode :=
  match n with
  | .grouping kind members mult isInit an => do
    let m2 ← mult.add input
    pure (.grouping kind members m2 isInit an)
  | .functionNode name pk pm mult an => do
    let m2 ← mult.add input
    pure (.functionNode name pk pm m2 an)
  | .referenceNode name isInt isFn attrs mult an => do
    let m2 ← mult.add input
    pure (.referenceNode name isInt isFn attrs m2 an)
  | .keywordNode kw mult an => do
    let m2 ← mult.add input
    pure (.keywordNode kw m2 an)
  | .literalNode v mult an => do
    let m2 ← mult.add input
    pure (.literalNode v m2 an)

/-- Applies BNFNodeMultiplier.add_annotation to a node's multiplier in
place. -/
def BNFNode.add_annot_to_multiplier (n : BNFNode) (an : Annot) : Except String BNFNode :=
  match n with
  | .grouping kind members mult isInit old => do
    let m2 ← mult.add_annot an
    pure (.grouping kind members m2 isInit old)
  | .functionNode name pk pm mult old => do
    let m2 ← mult.add_annot an
    pure (.functionNode name pk pm m2 old)
  | .referenceNode name isInt isFn attrs mult old => do
    let m2 ← mult.add_annot an
    pure (.referenceNode name isInt isFn attrs m2 old)
  | .keywordNode kw mult old => do
    let m2 ← mult.add_annot an
    pure (.keywordNode kw m2 old)
  | .literalNode v mult old => do
    let m2 ← mult.add_annot an
    pure (.literalNode v m2 old)

/-! The lexer (BNFToken / BNFLexer). -/

/-- The token kinds, one per BNFToken pattern plus the illegal and
end-of-input markers. -/
inductive TokName where
  | FLOAT
  | INT
  | LPAREN
  | RPAREN
  | LBRACE
  | RBRACE
  | LSQUARE
  | RSQUARE
  | LTLT
  | GTGT
  | LT
  | GT
  | SQUOTE
  | ATPAREN
  | HASH
  | PLUS
  | STAR
  | NOT
  | QMARK
  | OROR
  | OR
  | ANDAND
  | COMMA
  | SLASH
  | EQUAL
  | FUNC
  | ID
  | WHITESPACE
  | ILLEGAL
  | EOFTOK
  deriving DecidableEq, Repr

/-- A lexed token: kind and matched text (BNFTokenInfo). -/
structure Tok where
  name : TokName
  value : String
  deriving DecidableEq, Repr

/-- Identifier start characters of the FUNC and ID patterns. -/
def isIdentStart (c : Char) : Bool := c = '_' || c.isAlpha || c = '-'

/-- Identifier continuation characters of the FUNC and ID patterns. -/
def isIdentCont (c : Char) : Bool := isIdentStart c || c.isDigit

/-- Whitespace characters of the WHITESPACE pattern (tab, newline,
Python backslash-s, carriage return). -/
def isWsChar (c : Char) : Bool :=
  c = ' ' || c = '\t' || c = '\n' || c = '\r' || c = '\x0b' || c = '\x0c'

/-- Greedy span of a character class at the front of the input. -/
def takeWhileChars (p : Char → Bool) : List Char → List Char × List Char
  | [] => ([], [])
  | c :: cs =>
    if p c then
      let (taken, rest) := takeWhileChars p cs
      (c :: taken, rest)
    else ([], c :: cs)

/-- Match one or more digits at the front of the input. -/
def matchDigits1 (cs : List Char) : Option (List Char × List Char) :=
  let (taken, rest) := takeWhileChars Char.isDigit cs
  if taken = [] then none else some (taken, rest)

/-- The INT pattern: optional minus sign, then digits. -/
def matchInt (cs : List Char) : Option (List Char × List Char) :=
  match cs with
  | '-' :: rest =>
    match matchDigits1 rest with
    | some (ds, rest2) => some ('-' :: ds, rest2)
    | none => none
  | _ => matchDigits1 cs

/-- The FLOAT pattern: optional minus sign, digits, a dot, digits. -/
def matchFloat (cs : List Char) : Option (List Char × List Char) :=
  let core := fun (cs2 : List Char) =>
    match matchDigits1 cs2 with
    | some (ds, rest) =>
      match rest with
      | '.' :: rest2 =>
        match matchDigits1 rest2 with
        | some (ds2, rest3) => some (ds ++ '.' :: ds2, rest3)
        | none => none
      | _ => none
    | none => none
  match cs with
  | '-' :: rest =>
    match core rest with
    | some (m, rest2) => some ('-' :: m, rest2)
    | none => none
  | _ => core cs

/-- Match a fixed literal at the front of the input. -/
def matchLit (lit : List Char) (cs : List Char) : Option (List Char × List Char) :=
  if lit.isPrefixOf cs then some (lit, cs.drop lit.length) else none

/-- The ID pattern: an identifier-start character, then identifier
continuation characters, greedily. -/
def matchId (cs : List Char) : Option (List Char × List Char) :=
  match cs with
  | c :: rest =>
    if isIdentStart c then
      let (taken, rest2) := takeWhileChars isIdentCont rest
      some (c :: taken, rest2)
    else none
  | [] => none

/-- The FUNC pattern: an identifier immediately followed by an opening
parenthesis (which is part of the match). -/
def matchFunc (cs : List Char) : Option (List Char × List Char) :=
  match matchId cs with
  | some (idchars, rest) =>
    match rest with
    | '(' :: rest2 => some (idchars ++ ['('], rest2)
    | _ => none
  | none => none

/-- The WHITESPACE pattern: one or more whitespace characters. -/
def matchWs (cs : List Char) : Option (List Char × List Char) :=
  let (taken, rest) := takeWhileChars isWsChar cs
  if taken = [] then none else some (taken, rest)

/-- Try every token pattern in the priority order of the BNFToken enum
(numbers, brackets, multipliers, combinators, literals, identifiers,
whitespace) and take the first match, as the lexer loop does. -/
def matchToken (cs : List Char) : Option (TokName × List Char × List Char) :=
  match matchFloat cs with
  | some (m, r) => some (.FLOAT, m, r)
  | none =>
  match matchInt cs with
  | some (m, r) => some (.INT, m, r)
  | none =>
  match matchLit ['('] cs with
  | some (m, r) => some (.LPAREN, m, r)
  | none =>
  match matchLit [')'] cs with
  | some (m, r) => some (.RPAREN, m, r)
  | none =>
  match matchLit ['{'] cs with
  | some (m, r) => some (.LBRACE, m, r)
  | none =>
  match matchLit ['}'] cs with
  | some (m, r) => some (.RBRACE, m, r)
  | none =>
  match matchLit ['['] cs with
  | some (m, r) => some (.LSQUARE, m, r)
  | none =>
  match matchLit [']'] cs with
  | some (m, r) => some (.RSQUARE, m, r)
  | none =>
  match matchLit ['<', '<'] cs with
  | some (m, r) => some (.LTLT, m, r)
  | none =>
  match matchLit ['>', '>'] cs with
  | some (m, r) => some (.GTGT, m, r)
  | none =>
  match matchLit ['<'] cs with
  | some (m, r) => some (.LT, m, r)
  | none =>
  match matchLit ['>'] cs with
  | some (m, r) => some (.GT, m, r)
  | none =>
  match matchLit ['\x27'] cs with
  | some (m, r) => some (.SQUOTE, m, r)
  | none =>
  match matchLit ['@', '('] cs with
  | some (m, r) => some (.ATPAREN, m, r)
  | none =>
  match matchLit ['#'] cs with
  | some (m, r) => some (.HASH, m, r)
  | none =>
  match matchLit ['+'] cs with
  | some (m, r) => some (.PLUS, m, r)
  | none =>
  match matchLit ['*'] cs with
  | some (m, r) => some (.STAR, m, r)
  | none =>
  match matchLit ['!'] cs with
  | some (m, r) => some (.NOT, m, r)
  | none =>
  match matchLit ['?'] cs with
  | some (m, r) => some (.QMARK, m, r)
  | none =>
  match matchLit ['|', '|'] cs with
  | some (m, r) => some (.OROR, m, r)
  | none =>
  match matchLit ['|'] cs with
  | some (m, r) => some (.OR, m, r)
  | none =>
  match matchLit ['&', '&'] cs with
  | some (m, r) => some (.ANDAND, m, r)
  | none =>
  match matchLit [','] cs with
  | some (m, r) => some (.COMMA, m, r)
  | none =>
  match matchLit ['/'] cs with
  | some (m, r) => some (.SLASH, m, r)
  | none =>
  match matchLit ['='] cs with
  | some (m, r) => some (.EQUAL, m, r)
  | none =>
  match matchFunc cs with
  | some (m, r) => some (.FUNC, m, r)
  | none =>
  match matchId cs with
  | some (m, r) => some (.ID, m, r)
  | none =>
  match matchWs cs with
  | some (m, r) => some (.WHITESPACE, m, r)
  | none => none

/-- The lexer loop (BNFLexer): repeatedly match at the current position,
dropping whitespace, emitting an illegal-token marker and advancing one
character when nothing matches, and appending the end-of-input token.
The fuel equals the input length; every step consumes at least one
character, so the zero-fuel guard is unreachable. -/
def lexLoop : Nat → List Char → List Tok
  | _, [] => [⟨.EOFTOK, "\x00"⟩]
  | 0, _ => [⟨.EOFTOK, "\x00"⟩]
  | fuel + 1, c :: cs =>
    match matchToken (c :: cs) with
    | some (.WHITESPACE, _, rest) => lexLoop fuel rest
    | some (nm, m, rest) => ⟨nm, String.mk m⟩ :: lexLoop fuel rest
    | none => ⟨.ILLEGAL, String.mk [c]⟩ :: lexLoop fuel cs

/-- Lex a grammar string into tokens. -/
def BNFLexer (s : String) : List Tok := lexLoop s.length s.data

/-! The push-down parser state machine (BNFParser). -/

/-- The parser states (BNFParserState); the annotation states are
shortened to ANNOT. -/
inductive PState where
  | UNKNOWN_GROUPING_INITIAL
  | UNKNOWN_GROUPING_SEEN_TERM
  | KNOWN_ORDERED_GROUPING
  | KNOWN_COMBINATOR_GROUPING_TERM_REQUIRED
  | KNOWN_COMBINATOR_GROUPING_COMBINATOR_OR_CLOSE_REQUIRED
  | INTERNAL_REFERENCE_INITIAL
  | INTERNAL_REFERENCE_SEEN_ID
  | REFERENCE_INITIAL
  | REFERENCE_SEEN_QUOTE_OPEN
  | REFERENCE_SEEN_QUOTE_AND_ID
  | REFERENCE_SEEN_FUNCTION_OPEN
  | REFERENCE_SEEN_ID_OR_FUNCTION
  | REFERENCE_STRING_ATTRIBUTE_INITIAL
  | REFERENCE_STRING_ATTRIBUTE_SEEN_EQUAL
  | REFERENCE_STRING_ATTRIBUTE_SEEN_VALUE
  | REFERENCE_RANGE_ATTRIBUTE_INITIAL
  | REFERENCE_RANGE_ATTRIBUTE_SEEN_MIN
  | REFERENCE_RANGE_ATTRIBUTE_SEEN_MIN_AND_COMMA
  | REFERENCE_RANGE_ATTRIBUTE_SEEN_MAX
  | REPETITION_MODIFIER_INITIAL
  | REPETITION_MODIFIER_SEEN_MIN
  | REPETITION_MODIFIER_SEEN_MIN_AND_COMMA
  | REPETITION_MODIFIER_SEEN_MAX
  | QUOTED_LITERAL_INITIAL
  | QUOTED_LITERAL_SEEN_ID
  | ANNOT_INITIAL
  | ANNOT_SEEN_ID
  | ANNOT_SEEN_EQUAL_OR_COMMA
  | ANNOT_SEEN_VALUE
  | DONE
  deriving DecidableEq, Repr

/-- The source keeps object references in multiplier_target and
annotation_target; whenever those are not None they denote the most
recently completed member of the currently open grouping or function
node, or that member's multiplier.  The model records which. -/
inductive AnnotTarget where
  | lastMemberNode
  | lastMemberMultiplier
  deriving DecidableEq, Repr

/-- A node being built on the state stack (the node field of a
BNFParserStateInfo frame).  The repetition-modifier frame records whether
its owner (the multiplier_target captured at push time) was set; the
annotation frame records the annotation_target captured at push time. -/
inductive UCNode where
  | node (n : BNFNode)
  | repModFrame (r : RepMod) (ownerIsLastMember : Bool)
  | strAttrFrame (name : String) (value : List String)
  | rangeAttrFrame (min max : Option String)
  | annotFrame (a : Annot) (owner : Option AnnotTarget)
  | directiveFrame (d : Directive)

/-- One frame of the parser stack (state plus node under construction;
the owner is positional: the frame below, except where UCNode records
it). -/
structure Frame where
  state : PState
  node : UCNode

/-- The whole parser configuration: the frame stack (head is top) and
the two target registers. -/
structure ParserCfg where
  stack : List Frame
  multiplierTarget : Bool
  annotTarget : Option AnnotTarget

/-- Mirrors BNFParser.COMBINATOR_FOR_TOKEN. -/
def combinatorForToken : TokName → Option GroupingKind
  | .OR => some .matchOne
  | .OROR => some .matchOneOrMoreAnyOrder
  | .ANDAND => some .matchAllAnyOrder
  | _ => none

/-- Mirrors BNFParser.SIMPLE_MULTIPLIERS. -/
def isSimpleMultiplier (t : TokName) : Bool :=
  t = .HASH || t = .PLUS || t = .STAR || t = .NOT || t = .QMARK

/-- Mirrors BNFParser.SUPPORTED_UNQUOTED_LITERALS. -/
def isSupportedUnquotedLiteral (t : TokName) : Bool :=
  t = .COMMA || t = .SLASH

/-- The parse error for a token that fits no rule of the current state
(the source message also names the state and the whole source string). -/
def unexpectedErr (tok : Tok) : Except String ParserCfg :=
  .error ("Unexpected token while parsing: " ++ tok.value)

/-- Mirrors BNFParser.transition_top. -/
def transition_top (cfg : ParserCfg) (ps : PState) : ParserCfg :=
  match cfg.stack with
  | f :: rest => ⟨⟨ps, f.node⟩ :: rest, cfg.multiplierTarget, cfg.annotTarget⟩
  | [] => cfg

/-- Mirrors BNFGroupingNode.add and BNFFunctionNode.add; other node kinds
have no member list (calling add on them would be an attribute error). -/
def BNFNode.add_member (n : BNFNode) (m : BNFNode) : Except String BNFNode :=
  match n with
  | .grouping kind members mult ii an => pure (.grouping kind (members ++ [m]) mult ii an)
  | .functionNode name pk pm mult an => pure (.functionNode name pk (pm ++ [m]) mult an)
  | _ => .error "node does not accept members"

/-- The kind setter proxied by BNFFunctionNode to its parameter group. -/
def BNFNode.set_kind (n : BNFNode) (k : GroupingKind) : Except String BNFNode :=
  match n with
  | .grouping _ members mult ii an => pure (.grouping k members mult ii an)
  | .functionNode name _ pm mult an => pure (.functionNode name k pm mult an)
  | _ => .error "node has no grouping kind"

/-- The kind getter (grouping node, or a function node's parameter
group). -/
def BNFNode.get_kind : BNFNode → Option GroupingKind
  | .grouping k _ _ _ _ => some k
  | .functionNode _ k _ _ _ => some k
  | _ => none

/-- Update the most recently completed member of the node in the top
frame (the object multiplier_target / annotation_target point at). -/
def modify_last_member (cfg : ParserCfg) (f : BNFNode → Except String BNFNode) :
    Except String ParserCfg :=
  match cfg.stack with
  | ⟨st, .node n⟩ :: rest =>
    match n with
    | .grouping kind members mult ii an =>
      match members.getLast? with
      | some lastM => do
        let m2 ← f lastM
        pure ⟨⟨st, .node (.grouping kind (members.dropLast ++ [m2]) mult ii an)⟩ :: rest,
              cfg.multiplierTarget, cfg.annotTarget⟩
      | none => .error "no completed member to target"
    | .functionNode name pk pm mult an =>
      match pm.getLast? with
      | some lastM => do
        let m2 ← f lastM
        pure ⟨⟨st, .node (.functionNode name pk (pm.dropLast ++ [m2]) mult an)⟩ :: rest,
              cfg.multiplierTarget, cfg.annotTarget⟩
      | none => .error "no completed member to target"
    | _ => .error "top node has no member list"
  | _ => .error "no node on top of the parser stack"

/-- Push a new frame. -/
def pushFrame (cfg : ParserCfg) (st : PState) (n : UCNode) : ParserCfg :=
  ⟨⟨st, n⟩ :: cfg.stack, cfg.multiplierTarget, cfg.annotTarget⟩

/-- Mirrors enter_new_grouping. -/
def enter_new_grouping (cfg : ParserCfg) : ParserCfg :=
  { pushFrame cfg .UNKNOWN_GROUPING_INITIAL
      (.node (.grouping .matchAllOrdered [] NodeMultiplier.empty false none)) with
    multiplierTarget := false, annotTarget := none }

/-- Mirrors exit_grouping (pop, attach to owner, retarget). -/
def exit_grouping (cfg : ParserCfg) (tok : Tok) : Except String ParserCfg :=
  match cfg.stack with
  | ⟨_, .node (.grouping kind members mult false an)⟩ :: ⟨st2, .node owner⟩ :: rest2 => do
    let owner2 ← owner.add_member (.grouping kind members mult false an)
    pure ⟨⟨st2, .node owner2⟩ :: rest2, true, some .lastMemberNode⟩
  | _ => unexpectedErr tok

/-- Mirrors exit_initial_grouping. -/
def exit_initial_grouping (cfg : ParserCfg) (tok : Tok) : Except String ParserCfg :=
  match cfg.stack with
  | ⟨_, .node (.grouping kind members mult true an)⟩ :: rest =>
    pure ⟨⟨.DONE, .node (.grouping kind members mult true an)⟩ :: rest,
          cfg.multiplierTarget, cfg.annotTarget⟩
  | _ => unexpectedErr tok

/-- Mirrors enter_new_function (the token value includes the opening
parenthesis, which is stripped). -/
def enter_new_function (cfg : ParserCfg) (tok : Tok) : ParserCfg :=
  { pushFrame cfg .UNKNOWN_GROUPING_INITIAL
      (.node (.functionNode (tok.value.dropRight 1) .matchAllOrdered [] NodeMultiplier.empty none)) with
    multiplierTarget := false, annotTarget := none }

/-- Mirrors exit_function. -/
def exit_function (cfg : ParserCfg) (tok : Tok) : Except String ParserCfg :=
  match cfg.stack with
  | ⟨_, .node (.functionNode name pk pm mult an)⟩ :: ⟨st2, .node owner⟩ :: rest2 => do
    let owner2 ← owner.add_member (.functionNode name pk pm mult an)
    pure ⟨⟨st2, .node owner2⟩ :: rest2, true, some .lastMemberNode⟩
  | _ => unexpectedErr tok

/-- Mirrors enter_new_internal_reference. -/
def enter_new_internal_reference (cfg : ParserCfg) : ParserCfg :=
  { pushFrame cfg .INTERNAL_REFERENCE_INITIAL
      (.node (.referenceNode none true false [] NodeMultiplier.empty none)) with
    multiplierTarget := false, annotTarget := none }

/-- Mirrors exit_internal_reference. -/
def exit_internal_reference (cfg : ParserCfg) (tok : Tok) : Except String ParserCfg :=
  match cfg.stack with
  | ⟨_, .node (.referenceNode name true isFn attrs mult an)⟩ :: ⟨st2, .node owner⟩ :: rest2 => do
    let owner2 ← owner.add_member (.referenceNode name true isFn attrs mult an)
    pure ⟨⟨st2, .node owner2⟩ :: rest2, true, some .lastMemberNode⟩
  | _ => unexpectedErr tok

/-- Mirrors enter_new_reference. -/
def enter_new_reference (cfg : ParserCfg) : ParserCfg :=
  { pushFrame cfg .REFERENCE_INITIAL
      (.node (.referenceNode none false false [] NodeMultiplier.empty none)) with
    multiplierTarget := false, annotTarget := none }

/-- Mirrors exit_reference. -/
def exit_reference (cfg : ParserCfg) (tok : Tok) : Except String ParserCfg :=
  match cfg.stack with
  | ⟨_, .node (.referenceNode name false isFn attrs mult an)⟩ :: ⟨st2, .node owner⟩ :: rest2 => do
    let owner2 ← owner.add_member (.referenceNode name false isFn attrs mult an)
    pure ⟨⟨st2, .node owner2⟩ :: rest2, true, some .lastMemberNode⟩
  | _ => unexpectedErr tok

/-- Mirrors enter_new_repetition_modifier (the owner is the current
multiplier_target; annotation_target is cleared, multiplier_target is
kept). -/
def enter_new_repetition_modifier (cfg : ParserCfg) : ParserCfg :=
  { pushFrame cfg .REPETITION_MODIFIER_INITIAL
      (.repModFrame ⟨none, none, none⟩ cfg.multiplierTarget) with
    annotTarget := none }

/-- Mirrors exit_repetition_modifier: the finished modifier is added to
the owner's multiplier; an absent owner is the attribute error the
source would hit dereferencing None. -/
def exit_repetition_modifier (cfg : ParserCfg) (tok : Tok) : Except String ParserCfg :=
  match cfg.stack with
  | ⟨_, .repModFrame r ownerLM⟩ :: rest =>
    if ownerLM then do
      let cfg2 ← modify_last_member ⟨rest, cfg.multiplierTarget, cfg.annotTarget⟩
        (fun n => n.add_to_multiplier (.rep r))
      pure ⟨cfg2.stack, false, some .lastMemberMultiplier⟩
    else .error "no multiplier target for the repetition modifier"
  | _ => unexpectedErr tok

/-- Mirrors enter_new_string_attribute. -/
def enter_new_string_attribute (cfg : ParserCfg) (tok : Tok) : ParserCfg :=
  { pushFrame cfg .REFERENCE_STRING_ATTRIBUTE_INITIAL (.strAttrFrame tok.value []) with
    multiplierTarget := false, annotTarget := none }

/-- Mirrors exit_string_attribute (attach to the reference node below). -/
def exit_string_attribute (cfg : ParserCfg) (tok : Tok) : Except String ParserCfg :=
  match cfg.stack with
  | ⟨_, .strAttrFrame nm vs⟩ ::
      ⟨st2, .node (.referenceNode rname isInt isFn attrs mult an)⟩ :: rest2 =>
    pure ⟨⟨st2, .node (.referenceNode rname isInt isFn (attrs ++ [.strAttr nm vs]) mult an)⟩ :: rest2,
          false, none⟩
  | _ => unexpectedErr tok

/-- Mirrors enter_new_range_attribute. -/
def enter_new_range_attribute (cfg : ParserCfg) : ParserCfg :=
  { pushFrame cfg .REFERENCE_RANGE_ATTRIBUTE_INITIAL (.rangeAttrFrame none none) with
    multiplierTarget := false, annotTarget := none }

/-- Mirrors exit_range_attribute. -/
def exit_range_attribute (cfg : ParserCfg) (tok : Tok) : Except String ParserCfg :=
  match cfg.stack with
  | ⟨_, .rangeAttrFrame mn mx⟩ ::
      ⟨st2, .node (.referenceNode rname isInt isFn attrs mult an)⟩ :: rest2 =>
    pure ⟨⟨st2, .node (.referenceNode rname isInt isFn (attrs ++ [.rangeAttr mn mx]) mult an)⟩ :: rest2,
          false, none⟩
  | _ => unexpectedErr tok

/-- Mirrors enter_new_quoted_literal. -/
def enter_new_quoted_literal (cfg : ParserCfg) : ParserCfg :=
  { pushFrame cfg .QUOTED_LITERAL_INITIAL
      (.node (.literalNode none NodeMultiplier.empty none)) with
    multiplierTarget := false, annotTarget := none }

/-- Mirrors exit_quoted_literal. -/
def exit_quoted_literal (cfg : ParserCfg) (tok : Tok) : Except String ParserCfg :=
  match cfg.stack with
  | ⟨_, .node (.literalNode v mult an)⟩ :: ⟨st2, .node owner⟩ :: rest2 => do
    let owner2 ← owner.add_member (.literalNode v mult an)
    pure ⟨⟨st2, .node owner2⟩ :: rest2, true, some .lastMemberNode⟩
  | _ => unexpectedErr tok

/-- Mirrors enter_new_annot (the owner is the current
annotation_target; multiplier_target is deliberately kept). -/
def enter_new_annot (cfg : ParserCfg) : ParserCfg :=
  { pushFrame cfg .ANNOT_INITIAL (.annotFrame ⟨[]⟩ cfg.annotTarget) with
    annotTarget := none }

/-- Mirrors exit_annotation: the finished annotation is attached to the
captured target; an absent target is the attribute error the source
would hit dereferencing None. -/
def exit_annotation (cfg : ParserCfg) (tok : Tok) : Except String ParserCfg :=
  match cfg.stack with
  | ⟨_, .annotFrame a owner⟩ :: rest =>
    match owner with
    | some .lastMemberNode => do
      let cfg2 ← modify_last_member ⟨rest, cfg.multiplierTarget, cfg.annotTarget⟩
        (fun n => n.add_annot a)
      pure ⟨cfg2.stack, cfg2.multiplierTarget, none⟩
    | some .lastMemberMultiplier => do
      let cfg2 ← modify_last_member ⟨rest, cfg.multiplierTarget, cfg.annotTarget⟩
        (fun n => n.add_annot_to_multiplier a)
      pure ⟨cfg2.stack, cfg2.multiplierTarget, none⟩
    | none => .error "no annotation target"
  | _ => unexpectedErr tok

/-- Mirrors enter_new_directive. -/
def enter_new_directive (cfg : ParserCfg) (tok : Tok) : ParserCfg :=
  pushFrame cfg .ANNOT_SEEN_ID (.directiveFrame ⟨tok.value, []⟩)

/-- Mirrors exit_directive (append to the annotation frame below). -/
def exit_directive (cfg : ParserCfg) (tok : Tok) : Except String ParserCfg :=
  match cfg.stack with
  | ⟨_, .directiveFrame d⟩ :: ⟨st2, .annotFrame a owner⟩ :: rest2 =>
    pure ⟨⟨st2, .annotFrame ⟨a.directives ++ [d]⟩ owner⟩ :: rest2,
          cfg.multiplierTarget, cfg.annotTarget⟩
  | _ => unexpectedErr tok

/-- Mirrors process_keyword. -/
def process_keyword (cfg : ParserCfg) (tok : Tok) : Except String ParserCfg :=
  match cfg.stack with
  | ⟨st, .node n⟩ :: rest => do
    let n2 ← n.add_member (.keywordNode tok.value NodeMultiplier.empty none)
    pure ⟨⟨st, .node n2⟩ :: rest, true, some .lastMemberNode⟩
  | _ => unexpectedErr tok

/-- Mirrors process_unquoted_literal. -/
def process_unquoted_literal (cfg : ParserCfg) (tok : Tok) : Except String ParserCfg :=
  match cfg.stack with
  | ⟨st, .node n⟩ :: rest => do
    let n2 ← n.add_member (.literalNode (some tok.value) NodeMultiplier.empty none)
    pure ⟨⟨st, .node n2⟩ :: rest, true, some .lastMemberNode⟩
  | _ => unexpectedErr tok

/-- Mirrors process_simple_multiplier: the multiplier token is added to
the multiplier of the current multiplier target (dereferencing an unset
target is the source's attribute error). -/
def process_simple_multiplier (cfg : ParserCfg) (tok : Tok) : Except String ParserCfg :=
  if cfg.multiplierTarget then do
    let cfg2 ← modify_last_member cfg (fun n => n.add_to_multiplier (.simple tok.value))
    pure ⟨cfg2.stack, cfg2.multiplierTarget, some .lastMemberMultiplier⟩
  else .error "no multiplier target for the simple multiplier"

/-- The kind assignment shared by process_combinator's two callers. -/
def set_combinator (cfg : ParserCfg) (newKind : GroupingKind) : Except String ParserCfg :=
  match cfg.stack with
  | ⟨st, .node n⟩ :: rest => do
    let n2 ← n.set_kind newKind
    pure ⟨⟨st, .node n2⟩ :: rest, false, none⟩
  | _ => .error "no node on top of the parser stack"

/-- Mirrors process_combinator: with a locked kind, a combinator of a
different kind is the hard error suggesting the locked kind by name;
otherwise the grouping's kind is set from the token. -/
def process_combinator (cfg : ParserCfg) (tok : Tok) (knownKind : Option GroupingKind) :
    Except String ParserCfg :=
  match combinatorForToken tok.name with
  | some newKind =>
    match knownKind with
    | some k =>
      if k ≠ newKind then
        .error ("Unexpected token " ++ tok.value ++ ". Did you mean " ++ k.enumName ++ " instead?")
      else set_combinator cfg newKind
    | none => set_combinator cfg newKind
  | none => unexpectedErr tok

/-- Thunk for UNKNOWN_GROUPING_INITIAL. -/
def parse_UNKNOWN_GROUPING_INITIAL (cfg : ParserCfg) (tok : Tok) : Except String ParserCfg :=
  if tok.name = .LSQUARE then
    pure (enter_new_grouping (transition_top cfg .UNKNOWN_GROUPING_SEEN_TERM))
  else if tok.name = .LTLT then
    pure (enter_new_internal_reference (transition_top cfg .UNKNOWN_GROUPING_SEEN_TERM))
  else if tok.name = .LT then
    pure (enter_new_reference (transition_top cfg .UNKNOWN_GROUPING_SEEN_TERM))
  else if tok.name = .FUNC then
    pure (enter_new_function (transition_top cfg .UNKNOWN_GROUPING_SEEN_TERM) tok)
  else if tok.name = .ID then
    process_keyword (transition_top cfg .UNKNOWN_GROUPING_SEEN_TERM) tok
  else if tok.name = .SQUOTE then
    pure (enter_new_quoted_literal (transition_top cfg .UNKNOWN_GROUPING_SEEN_TERM))
  else if isSupportedUnquotedLiteral tok.name then
    process_unquoted_literal (transition_top cfg .UNKNOWN_GROUPING_SEEN_TERM) tok
  else if tok.name = .RPAREN then
    exit_function (transition_top cfg .UNKNOWN_GROUPING_SEEN_TERM) tok
  else unexpectedErr tok

/-- Thunk for UNKNOWN_GROUPING_SEEN_TERM. -/
def parse_UNKNOWN_GROUPING_SEEN_TERM (cfg : ParserCfg) (tok : Tok) : Except String ParserCfg :=
  if tok.name = .RSQUARE then exit_grouping cfg tok
  else if tok.name = .EOFTOK then exit_initial_grouping cfg tok
  else if tok.name = .RPAREN then exit_function cfg tok
  else if tok.name = .LSQUARE then
    pure (enter_new_grouping (transition_top cfg .KNOWN_ORDERED_GROUPING))
  else if tok.name = .LTLT then
    pure (enter_new_internal_reference (transition_top cfg .KNOWN_ORDERED_GROUPING))
  else if tok.name = .LT then
    pure (enter_new_reference (transition_top cfg .KNOWN_ORDERED_GROUPING))
  else if tok.name = .FUNC then
    pure (enter_new_function (transition_top cfg .KNOWN_ORDERED_GROUPING) tok)
  else if tok.name = .ID then
    process_keyword (transition_top cfg .KNOWN_ORDERED_GROUPING) tok
  else if tok.name = .SQUOTE then
    pure (enter_new_quoted_literal (transition_top cfg .KNOWN_ORDERED_GROUPING))
  else if isSupportedUnquotedLiteral tok.name then
    process_unquoted_literal (transition_top cfg .KNOWN_ORDERED_GROUPING) tok
  else if (combinatorForToken tok.name).isSome then
    process_combinator (transition_top cfg .KNOWN_COMBINATOR_GROUPING_TERM_REQUIRED) tok none
  else if isSimpleMultiplier tok.name then
    process_simple_multiplier cfg tok
  else if tok.name = .ATPAREN then
    pure (enter_new_annot cfg)
  else if tok.name = .LBRACE then
    pure (enter_new_repetition_modifier cfg)
  else unexpectedErr tok

/-- Thunk for KNOWN_ORDERED_GROUPING. -/
def parse_KNOWN_ORDERED_GROUPING (cfg : ParserCfg) (tok : Tok) : Except String ParserCfg :=
  if tok.name = .RSQUARE then exit_grouping cfg tok
  else if tok.name = .EOFTOK then exit_initial_grouping cfg tok
  else if tok.name = .RPAREN then exit_function cfg tok
  else if tok.name = .LSQUARE then pure (enter_new_grouping cfg)
  else if tok.name = .LTLT then pure (enter_new_internal_reference cfg)
  else if tok.name = .LT then pure (enter_new_reference cfg)
  else if tok.name = .ID then process_keyword cfg tok
  else if tok.name = .SQUOTE then pure (enter_new_quoted_literal cfg)
  else if isSupportedUnquotedLiteral tok.name then process_unquoted_literal cfg tok
  else if tok.name = .FUNC then pure (enter_new_function cfg tok)
  else if tok.name = .LBRACE then pure (enter_new_repetition_modifier cfg)
  else if isSimpleMultiplier tok.name then process_simple_multiplier cfg tok
  else if tok.name = .ATPAREN then pure (enter_new_annot cfg)
  else unexpectedErr tok

/-- Thunk for KNOWN_COMBINATOR_GROUPING_TERM_REQUIRED.  The source's
final test compares the token name against an undefined global EOF, so
an end-of-input token here aborts with a name error; it is modelled as
an ordinary error. -/
def parse_KNOWN_COMBINATOR_GROUPING_TERM_REQUIRED (cfg : ParserCfg) (tok : Tok) :
    Except String ParserCfg :=
  if tok.name = .LSQUARE then
    pure (enter_new_grouping
      (transition_top cfg .KNOWN_COMBINATOR_GROUPING_COMBINATOR_OR_CLOSE_REQUIRED))
  else if tok.name = .LTLT then
    pure (enter_new_internal_reference
      (transition_top cfg .KNOWN_COMBINATOR_GROUPING_COMBINATOR_OR_CLOSE_REQUIRED))
  else if tok.name = .LT then
    pure (enter_new_reference
      (transition_top cfg .KNOWN_COMBINATOR_GROUPING_COMBINATOR_OR_CLOSE_REQUIRED))
  else if tok.name = .FUNC then
    pure (enter_new_function
      (transition_top cfg .KNOWN_COMBINATOR_GROUPING_COMBINATOR_OR_CLOSE_REQUIRED) tok)
  else if tok.name = .ID then
    process_keyword
      (transition_top cfg .KNOWN_COMBINATOR_GROUPING_COMBINATOR_OR_CLOSE_REQUIRED) tok
  else if tok.name = .RSQUARE then
    .error "Groupings cannot end in a combinator."
  else if tok.name = .EOFTOK then
    .error "name EOF is not defined"
  else unexpectedErr tok

/-- Thunk for KNOWN_COMBINATOR_GROUPING_COMBINATOR_OR_CLOSE_REQUIRED. -/
def parse_KNOWN_COMBINATOR_GROUPING_COMBINATOR_OR_CLOSE_REQUIRED
    (cfg : ParserCfg) (tok : Tok) : Except String ParserCfg :=
  if tok.name = .RSQUARE then exit_grouping cfg tok
  else if tok.name = .EOFTOK then exit_initial_grouping cfg tok
  else if tok.name = .RPAREN then exit_function cfg tok
  else if (combinatorForToken tok.name).isSome then
    match cfg.stack with
    | ⟨_, .node n⟩ :: _ =>
      process_combinator
        (transition_top cfg .KNOWN_COMBINATOR_GROUPING_TERM_REQUIRED) tok n.get_kind
    | _ => unexpectedErr tok
  else if isSimpleMultiplier tok.name then process_simple_multiplier cfg tok
  else if tok.name = .ATPAREN then pure (enter_new_annot cfg)
  else if tok.name = .LBRACE then pure (enter_new_repetition_modifier cfg)
  else unexpectedErr tok

/-- Thunk for REFERENCE_INITIAL. -/
def parse_REFERENCE_INITIAL (cfg : ParserCfg) (tok : Tok) : Except String ParserCfg :=
  match cfg.stack with
  | ⟨_, .node (.referenceNode _ isInt _ attrs mult an)⟩ :: rest =>
    if tok.name = .FUNC then
      pure ⟨⟨.REFERENCE_SEEN_FUNCTION_OPEN,
             .node (.referenceNode (some (tok.value.dropRight 1)) isInt true attrs mult an)⟩ :: rest,
            cfg.multiplierTarget, cfg.annotTarget⟩
    else if tok.name = .ID then
      pure ⟨⟨.REFERENCE_SEEN_ID_OR_FUNCTION,
             .node (.referenceNode (some tok.value) isInt false attrs mult an)⟩ :: rest,
            cfg.multiplierTarget, cfg.annotTarget⟩
    else if tok.name = .SQUOTE then
      pure (transition_top cfg .REFERENCE_SEEN_QUOTE_OPEN)
    else unexpectedErr tok
  | _ => unexpectedErr tok

/-- Thunk for REFERENCE_SEEN_QUOTE_OPEN (the name keeps the quotes). -/
def parse_REFERENCE_SEEN_QUOTE_OPEN (cfg : ParserCfg) (tok : Tok) : Except String ParserCfg :=
  match cfg.stack with
  | ⟨_, .node (.referenceNode _ isInt isFn attrs mult an)⟩ :: rest =>
    if tok.name = .ID then
      pure ⟨⟨.REFERENCE_SEEN_QUOTE_AND_ID,
             .node (.referenceNode (some ("\x27" ++ tok.value ++ "\x27")) isInt isFn attrs mult an)⟩ :: rest,
            cfg.multiplierTarget, cfg.annotTarget⟩
    else unexpectedErr tok
  | _ => unexpectedErr tok

/-- Thunk for REFERENCE_SEEN_QUOTE_AND_ID. -/
def parse_REFERENCE_SEEN_QUOTE_AND_ID (cfg : ParserCfg) (tok : Tok) : Except String ParserCfg :=
  if tok.name = .SQUOTE then pure (transition_top cfg .REFERENCE_SEEN_ID_OR_FUNCTION)
  else unexpectedErr tok

/-- Thunk for REFERENCE_SEEN_FUNCTION_OPEN. -/
def parse_REFERENCE_SEEN_FUNCTION_OPEN (cfg : ParserCfg) (tok : Tok) : Except String ParserCfg :=
  if tok.name = .RPAREN then pure (transition_top cfg .REFERENCE_SEEN_ID_OR_FUNCTION)
  else unexpectedErr tok

/-- Thunk for REFERENCE_SEEN_ID_OR_FUNCTION. -/
def parse_REFERENCE_SEEN_ID_OR_FUNCTION (cfg : ParserCfg) (tok : Tok) : Except String ParserCfg :=
  if tok.name = .ID then pure (enter_new_string_attribute cfg tok)
  else if tok.name = .LSQUARE then pure (enter_new_range_attribute cfg)
  else if tok.name = .GT then exit_reference cfg tok
  else unexpectedErr tok

/-- Thunk for INTERNAL_REFERENCE_INITIAL. -/
def parse_INTERNAL_REFERENCE_INITIAL (cfg : ParserCfg) (tok : Tok) : Except String ParserCfg :=
  match cfg.stack with
  | ⟨_, .node (.referenceNode _ isInt isFn attrs mult an)⟩ :: rest =>
    if tok.name = .ID then
      pure ⟨⟨.INTERNAL_REFERENCE_SEEN_ID,
             .node (.referenceNode (some tok.value) isInt isFn attrs mult an)⟩ :: rest,
            cfg.multiplierTarget, cfg.annotTarget⟩
    else unexpectedErr tok
  | _ => unexpectedErr tok

/-- Thunk for INTERNAL_REFERENCE_SEEN_ID. -/
def parse_INTERNAL_REFERENCE_SEEN_ID (cfg : ParserCfg) (tok : Tok) : Except String ParserCfg :=
  if tok.name = .ID then pure (enter_new_string_attribute cfg tok)
  else if tok.name = .LSQUARE then pure (enter_new_range_attribute cfg)
  else if tok.name = .GTGT then exit_internal_reference cfg tok
  else unexpectedErr tok

/-- Thunk for REFERENCE_STRING_ATTRIBUTE_INITIAL (a non-equal token
closes the attribute and is re-examined against the reference states). -/
def parse_REFERENCE_STRING_ATTRIBUTE_INITIAL (cfg : ParserCfg) (tok : Tok) :
    Except String ParserCfg :=
  if tok.name = .EQUAL then
    pure (transition_top cfg .REFERENCE_STRING_ATTRIBUTE_SEEN_EQUAL)
  else do
    let cfg2 ← exit_string_attribute cfg tok
    if tok.name = .ID then pure (enter_new_string_attribute cfg2 tok)
    else if tok.name = .LSQUARE then pure (enter_new_range_attribute cfg2)
    else if tok.name = .GT then exit_reference cfg2 tok
    else if tok.name = .GTGT then exit_internal_reference cfg2 tok
    else unexpectedErr tok

/-- Thunk for REFERENCE_STRING_ATTRIBUTE_SEEN_EQUAL. -/
def parse_REFERENCE_STRING_ATTRIBUTE_SEEN_EQUAL (cfg : ParserCfg) (tok : Tok) :
    Except String ParserCfg :=
  match cfg.stack with
  | ⟨_, .strAttrFrame nm vs⟩ :: rest =>
    if tok.name = .ID then
      pure ⟨⟨.REFERENCE_STRING_ATTRIBUTE_SEEN_VALUE, .strAttrFrame nm (vs ++ [tok.value])⟩ :: rest,
            cfg.multiplierTarget, cfg.annotTarget⟩
    else unexpectedErr tok
  | _ => unexpectedErr tok

/-- Thunk for REFERENCE_STRING_ATTRIBUTE_SEEN_VALUE. -/
def parse_REFERENCE_STRING_ATTRIBUTE_SEEN_VALUE (cfg : ParserCfg) (tok : Tok) :
    Except String ParserCfg :=
  if tok.name = .COMMA then
    pure (transition_top cfg .REFERENCE_STRING_ATTRIBUTE_SEEN_EQUAL)
  else do
    let cfg2 ← exit_string_attribute cfg tok
    if tok.name = .ID then pure (enter_new_string_attribute cfg2 tok)
    else if tok.name = .LSQUARE then pure (enter_new_range_attribute cfg2)
    else if tok.name = .GT then exit_reference cfg2 tok
    else if tok.name = .GTGT then exit_internal_reference cfg2 tok
    else unexpectedErr tok

/-- Thunk for REFERENCE_RANGE_ATTRIBUTE_INITIAL. -/
def parse_REFERENCE_RANGE_ATTRIBUTE_INITIAL (cfg : ParserCfg) (tok : Tok) :
    Except String ParserCfg :=
  match cfg.stack with
  | ⟨_, .rangeAttrFrame _ mx⟩ :: rest =>
    if tok.name = .INT ∨ tok.name = .FLOAT ∨ (tok.name = .ID ∧ tok.value = "-inf") then
      pure ⟨⟨.REFERENCE_RANGE_ATTRIBUTE_SEEN_MIN, .rangeAttrFrame (some tok.value) mx⟩ :: rest,
            cfg.multiplierTarget, cfg.annotTarget⟩
    else unexpectedErr tok
  | _ => unexpectedErr tok

/-- Thunk for REFERENCE_RANGE_ATTRIBUTE_SEEN_MIN. -/
def parse_REFERENCE_RANGE_ATTRIBUTE_SEEN_MIN (cfg : ParserCfg) (tok : Tok) :
    Except String ParserCfg :=
  if tok.name = .COMMA then
    pure (transition_top cfg .REFERENCE_RANGE_ATTRIBUTE_SEEN_MIN_AND_COMMA)
  else unexpectedErr tok

/-- Thunk for REFERENCE_RANGE_ATTRIBUTE_SEEN_MIN_AND_COMMA. -/
def parse_REFERENCE_RANGE_ATTRIBUTE_SEEN_MIN_AND_COMMA (cfg : ParserCfg) (tok : Tok) :
    Except String ParserCfg :=
  match cfg.stack with
  | ⟨_, .rangeAttrFrame mn _⟩ :: rest =>
    if tok.name = .INT ∨ tok.name = .FLOAT ∨ (tok.name = .ID ∧ tok.value = "inf") then
      pure ⟨⟨.REFERENCE_RANGE_ATTRIBUTE_SEEN_MAX, .rangeAttrFrame mn (some tok.value)⟩ :: rest,
            cfg.multiplierTarget, cfg.annotTarget⟩
    else unexpectedErr tok
  | _ => unexpectedErr tok

/-- Thunk for REFERENCE_RANGE_ATTRIBUTE_SEEN_MAX. -/
def parse_REFERENCE_RANGE_ATTRIBUTE_SEEN_MAX (cfg : ParserCfg) (tok : Tok) :
    Except String ParserCfg :=
  if tok.name = .RSQUARE then exit_range_attribute cfg tok
  else unexpectedErr tok

/-- Decimal digits to a natural number. -/
def digitsToNat (ds : List Char) : Nat :=
  ds.foldl (fun n c => n * 10 + (c.toNat - 48)) 0

/-- Python int() on a lexed INT token (an optional minus sign and
digits). -/
def pyInt (s : String) : Int :=
  match s.data with
  | '-' :: ds => - Int.ofNat (digitsToNat ds)
  | ds => Int.ofNat (digitsToNat ds)

/-- Thunk for REPETITION_MODIFIER_INITIAL. -/
def parse_REPETITION_MODIFIER_INITIAL (cfg : ParserCfg) (tok : Tok) :
    Except String ParserCfg :=
  match cfg.stack with
  | ⟨_, .repModFrame r ownerLM⟩ :: rest =>
    if tok.name = .INT then
      pure ⟨⟨.REPETITION_MODIFIER_SEEN_MIN,
             .repModFrame ⟨some .exact, some (pyInt tok.value), r.max⟩ ownerLM⟩ :: rest,
            cfg.multiplierTarget, cfg.annotTarget⟩
    else unexpectedErr tok
  | _ => unexpectedErr tok

/-- Thunk for REPETITION_MODIFIER_SEEN_MIN. -/
def parse_REPETITION_MODIFIER_SEEN_MIN (cfg : ParserCfg) (tok : Tok) :
    Except String ParserCfg :=
  match cfg.stack with
  | ⟨_, .repModFrame r ownerLM⟩ :: rest =>
    if tok.name = .COMMA then
      pure ⟨⟨.REPETITION_MODIFIER_SEEN_MIN_AND_COMMA,
             .repModFrame ⟨some .atLeast, r.min, r.max⟩ ownerLM⟩ :: rest,
            cfg.multiplierTarget, cfg.annotTarget⟩
    else if tok.name = .RBRACE then exit_repetition_modifier cfg tok
    else unexpectedErr tok
  | _ => unexpectedErr tok

/-- Thunk for REPETITION_MODIFIER_SEEN_MIN_AND_COMMA. -/
def parse_REPETITION_MODIFIER_SEEN_MIN_AND_COMMA (cfg : ParserCfg) (tok : Tok) :
    Except String ParserCfg :=
  match cfg.stack with
  | ⟨_, .repModFrame r ownerLM⟩ :: rest =>
    if tok.name = .INT then
      pure ⟨⟨.REPETITION_MODIFIER_SEEN_MAX,
             .repModFrame ⟨some .between, r.min, some (pyInt tok.value)⟩ ownerLM⟩ :: rest,
            cfg.multiplierTarget, cfg.annotTarget⟩
    else if tok.name = .RBRACE then exit_repetition_modifier cfg tok
    else unexpectedErr tok
  | _ => unexpectedErr tok

/-- Thunk for REPETITION_MODIFIER_SEEN_MAX. -/
def parse_REPETITION_MODIFIER_SEEN_MAX (cfg : ParserCfg) (tok : Tok) :
    Except String ParserCfg :=
  if tok.name = .RBRACE then exit_repetition_modifier cfg tok
  else unexpectedErr tok

/-- Thunk for QUOTED_LITERAL_INITIAL (takes the value whatever the token
is). -/
def parse_QUOTED_LITERAL_INITIAL (cfg : ParserCfg) (tok : Tok) : Except String ParserCfg :=
  match cfg.stack with
  | ⟨_, .node (.literalNode _ mult an)⟩ :: rest =>
    pure ⟨⟨.QUOTED_LITERAL_SEEN_ID, .node (.literalNode (some tok.value) mult an)⟩ :: rest,
          cfg.multiplierTarget, cfg.annotTarget⟩
  | _ => unexpectedErr tok

/-- Thunk for QUOTED_LITERAL_SEEN_ID (appends the value of any token
until the closing quote). -/
def parse_QUOTED_LITERAL_SEEN_ID (cfg : ParserCfg) (tok : Tok) : Except String ParserCfg :=
  if tok.name = .SQUOTE then exit_quoted_literal cfg tok
  else
    match cfg.stack with
    | ⟨st, .node (.literalNode v mult an)⟩ :: rest =>
      pure ⟨⟨st, .node (.literalNode (some (v.getD "" ++ tok.value)) mult an)⟩ :: rest,
            cfg.multiplierTarget, cfg.annotTarget⟩
    | _ => unexpectedErr tok

/-- Thunk for ANNOT_INITIAL. -/
def parse_ANNOT_INITIAL (cfg : ParserCfg) (tok : Tok) : Except String ParserCfg :=
  if tok.name = .ID then pure (enter_new_directive cfg tok)
  else unexpectedErr tok

/-- Thunk for ANNOT_SEEN_ID (a non-equal token closes the directive and
is re-examined). -/
def parse_ANNOT_SEEN_ID (cfg : ParserCfg) (tok : Tok) : Except String ParserCfg :=
  if tok.name = .EQUAL then pure (transition_top cfg .ANNOT_SEEN_EQUAL_OR_COMMA)
  else do
    let cfg2 ← exit_directive cfg tok
    if tok.name = .ID then pure (enter_new_directive cfg2 tok)
    else if tok.name = .RPAREN then exit_annotation cfg2 tok
    else unexpectedErr tok

/-- Thunk for ANNOT_SEEN_EQUAL_OR_COMMA. -/
def parse_ANNOT_SEEN_EQUAL_OR_COMMA (cfg : ParserCfg) (tok : Tok) : Except String ParserCfg :=
  match cfg.stack with
  | ⟨_, .directiveFrame d⟩ :: rest =>
    if tok.name = .ID then
      pure ⟨⟨.ANNOT_SEEN_VALUE, .directiveFrame ⟨d.name, d.value ++ [tok.value]⟩⟩ :: rest,
            cfg.multiplierTarget, cfg.annotTarget⟩
    else unexpectedErr tok
  | _ => unexpectedErr tok

/-- Thunk for ANNOT_SEEN_VALUE. -/
def parse_ANNOT_SEEN_VALUE (cfg : ParserCfg) (tok : Tok) : Except String ParserCfg :=
  if tok.name = .COMMA then pure (transition_top cfg .ANNOT_SEEN_EQUAL_OR_COMMA)
  else do
    let cfg2 ← exit_directive cfg tok
    if tok.name = .ID then pure (enter_new_directive cfg2 tok)
    else if tok.name = .RPAREN then exit_annotation cfg2 tok
    else unexpectedErr tok

/-- One step of BNFParser.parse: reject illegal tokens and dispatch on
the state of the top frame. -/
def parserStep (cfg : ParserCfg) (tok : Tok) : Except String ParserCfg :=
  if tok.name = .ILLEGAL then
    .error ("Illegal token found while parsing grammar definition: " ++ tok.value)
  else
    match cfg.stack with
    | [] => .error "empty parser stack"
    | f :: _ =>
      match f.state with
      | .UNKNOWN_GROUPING_INITIAL => parse_UNKNOWN_GROUPING_INITIAL cfg tok
      | .UNKNOWN_GROUPING_SEEN_TERM => parse_UNKNOWN_GROUPING_SEEN_TERM cfg tok
      | .KNOWN_ORDERED_GROUPING => parse_KNOWN_ORDERED_GROUPING cfg tok
      | .KNOWN_COMBINATOR_GROUPING_TERM_REQUIRED =>
        parse_KNOWN_COMBINATOR_GROUPING_TERM_REQUIRED cfg tok
      | .KNOWN_COMBINATOR_GROUPING_COMBINATOR_OR_CLOSE_REQUIRED =>
        parse_KNOWN_COMBINATOR_GROUPING_COMBINATOR_OR_CLOSE_REQUIRED cfg tok
      | .INTERNAL_REFERENCE_INITIAL => parse_INTERNAL_REFERENCE_INITIAL cfg tok
      | .INTERNAL_REFERENCE_SEEN_ID => parse_INTERNAL_REFERENCE_SEEN_ID cfg tok
      | .REFERENCE_INITIAL => parse_REFERENCE_INITIAL cfg tok
      | .REFERENCE_SEEN_QUOTE_OPEN => parse_REFERENCE_SEEN_QUOTE_OPEN cfg tok
      | .REFERENCE_SEEN_QUOTE_AND_ID => parse_REFERENCE_SEEN_QUOTE_AND_ID cfg tok
      | .REFERENCE_SEEN_FUNCTION_OPEN => parse_REFERENCE_SEEN_FUNCTION_OPEN cfg tok
      | .REFERENCE_SEEN_ID_OR_FUNCTION => parse_REFERENCE_SEEN_ID_OR_FUNCTION cfg tok
      | .REFERENCE_STRING_ATTRIBUTE_INITIAL => parse_REFERENCE_STRING_ATTRIBUTE_INITIAL cfg tok
      | .REFERENCE_STRING_ATTRIBUTE_SEEN_EQUAL =>
        parse_REFERENCE_STRING_ATTRIBUTE_SEEN_EQUAL cfg tok
      | .REFERENCE_STRING_ATTRIBUTE_SEEN_VALUE =>
        parse_REFERENCE_STRING_ATTRIBUTE_SEEN_VALUE cfg tok
      | .REFERENCE_RANGE_ATTRIBUTE_INITIAL => parse_REFERENCE_RANGE_ATTRIBUTE_INITIAL cfg tok
      | .REFERENCE_RANGE_ATTRIBUTE_SEEN_MIN => parse_REFERENCE_RANGE_ATTRIBUTE_SEEN_MIN cfg tok
      | .REFERENCE_RANGE_ATTRIBUTE_SEEN_MIN_AND_COMMA =>
        parse_REFERENCE_RANGE_ATTRIBUTE_SEEN_MIN_AND_COMMA cfg tok
      | .REFERENCE_RANGE_ATTRIBUTE_SEEN_MAX => parse_REFERENCE_RANGE_ATTRIBUTE_SEEN_MAX cfg tok
      | .REPETITION_MODIFIER_INITIAL => parse_REPETITION_MODIFIER_INITIAL cfg tok
      | .REPETITION_MODIFIER_SEEN_MIN => parse_REPETITION_MODIFIER_SEEN_MIN cfg tok
      | .REPETITION_MODIFIER_SEEN_MIN_AND_COMMA =>
        parse_REPETITION_MODIFIER_SEEN_MIN_AND_COMMA cfg tok
      | .REPETITION_MODIFIER_SEEN_MAX => parse_REPETITION_MODIFIER_SEEN_MAX cfg tok
      | .QUOTED_LITERAL_INITIAL => parse_QUOTED_LITERAL_INITIAL cfg tok
      | .QUOTED_LITERAL_SEEN_ID => parse_QUOTED_LITERAL_SEEN_ID cfg tok
      | .ANNOT_INITIAL => parse_ANNOT_INITIAL cfg tok
      | .ANNOT_SEEN_ID => parse_ANNOT_SEEN_ID cfg tok
      | .ANNOT_SEEN_EQUAL_OR_COMMA => parse_ANNOT_SEEN_EQUAL_OR_COMMA cfg tok
      | .ANNOT_SEEN_VALUE => parse_ANNOT_SEEN_VALUE cfg tok
      | .DONE => unexpectedErr tok

/-- Run the parser over a token list. -/
def runParser (cfg : ParserCfg) : List Tok → Except String ParserCfg
  | [] => pure cfg
  | t :: ts => do
    let cfg2 ← parserStep cfg t
    runParser cfg2 ts

/-- The initial configuration: a single frame holding the implicit root
grouping. -/
def initialParserCfg : ParserCfg :=
  ⟨[⟨.UNKNOWN_GROUPING_INITIAL,
     .node (.grouping .matchAllOrdered [] NodeMultiplier.empty true none)⟩], false, none⟩

/-- Mirrors BNFParser.parse: lex, run the machine, require the DONE
state, and return the root grouping node. -/
def BNFParser.parse (s : String) : Except String BNFNode := do
  let final ← runParser initialParserCfg (BNFLexer s)
  match final.stack with
  | [⟨.DONE, .node root⟩] => pure root
  | _ => .error "Unexpected state after processing all tokens"

/-! Conversion of parse-tree nodes to Terms (Term.from_node,
Term.wrap_with_multiplier and the _process_annotation constructors). -/

/-- Python directive.value[0]: the first value of a directive (indexing
an empty list raises). -/
def directive_value0 (d : Directive) : Except String String :=
  match d.value with
  | v :: _ => pure v
  | [] => .error ("directive has no value: " ++ d.name)

/-- Annotation processing for term classes that accept only the
settings-flag directive (MatchOneTerm, ReferenceTerm, FunctionTerm). -/
def process_annot_settings_only (errLabel : String) (an : Option Annot) :
    Except String (Option String) :=
  match an with
  | none => pure none
  | some a =>
    a.directives.foldlM
      (fun _acc d =>
        if d.name = "settings-flag" then do
          let v ← directive_value0 d
          pure (some v)
        else .error ("Unknown " ++ errLabel ++ " annotation directive: " ++ d.name))
      none

/-- Annotation processing for the list-producing term classes: the type
and no-single-item-opt directives are accepted (their stored toggles are
not modelled), preserve-order only where the class accepts it,
default only on bounded repetitions, and settings-flag everywhere;
anything else is an error.  Returns the settings flag and the default
value. -/
def process_annot_list_term (allowPreserve allowDefault : Bool) (an : Option Annot) :
    Except String (Option String × Option String) :=
  match an with
  | none => pure (none, none)
  | some a =>
    a.directives.foldlM
      (fun acc d =>
        if d.name = "type" then do
          let _ ← directive_value0 d
          pure acc
        else if d.name = "no-single-item-opt" then pure acc
        else if allowPreserve ∧ d.name = "preserve-order" then pure acc
        else if allowDefault ∧ d.name = "default" then do
          let v ← directive_value0 d
          pure (acc.1, some v)
        else if d.name = "settings-flag" then do
          let v ← directive_value0 d
          pure (some v, acc.2)
        else .error ("Unknown annotation directive: " ++ d.name))
      (none, none)

/-- Annotation processing for OptionalTerm, which accepts no directive. -/
def optional_process_annot (an : Option Annot) : Except String Unit :=
  match an with
  | none => pure ()
  | some a =>
    match a.directives with
    | [] => pure ()
    | d :: _ => .error ("Unknown optional term annotation directive: " ++ d.name)

/-- Annotation processing for KeywordTerm (aliased-to and settings-flag);
returns the alias and the settings flag. -/
def keyword_process_annot (an : Option Annot) :
    Except String (Option String × Option String) :=
  match an with
  | none => pure (none, none)
  | some a =>
    a.directives.foldlM
      (fun acc d =>
        if d.name = "aliased-to" then do
          let v ← directive_value0 d
          pure (some v, acc.2)
        else if d.name = "settings-flag" then do
          let v ← directive_value0 d
          pure (acc.1, some v)
        else .error ("Unknown keyword annotation directive: " ++ d.name))
      (none, none)

/-- A string parameter descriptor of a builtin reference schema entry,
with the domain of its mappings when it has any. -/
structure BuiltinStringParam where
  name : String
  mappings : Option (List String)
  deriving DecidableEq, Repr

/-- One entry of the builtin reference schema. -/
structure BuiltinEntry where
  name : String
  stringParams : List BuiltinStringParam
  hasRange : Bool
  deriving DecidableEq, Repr

/-- The builtin schema entries (ReferenceTerm.builtins), with the
mapping domains of their string parameters. -/
def builtinSchema : List BuiltinEntry :=
  [⟨"angle", [⟨"unitless-zero", some ["allowed", "forbidden"]⟩], true⟩,
   ⟨"length", [⟨"unitless-zero", some ["allowed", "forbidden"]⟩], true⟩,
   ⟨"length-percentage",
    [⟨"unitless-zero", some ["allowed", "forbidden"]⟩,
     ⟨"anchor", some ["allowed", "forbidden"]⟩,
     ⟨"anchor-size", some ["allowed", "forbidden"]⟩], true⟩,
   ⟨"time", [], true⟩,
   ⟨"integer", [], true⟩,
   ⟨"number", [], true⟩,
   ⟨"percentage", [], true⟩,
   ⟨"resolution", [], true⟩,
   ⟨"number-or-percentage-resolved-to-number", [], true⟩,
   ⟨"position", [], false⟩,
   ⟨"color", [⟨"allowed-types", some ["absolute", "current", "system"]⟩], false⟩,
   ⟨"image", [⟨"allowed-types", some ["url", "image-set", "generated"]⟩], false⟩,
   ⟨"string", [], false⟩,
   ⟨"custom-ident", [⟨"excluding", none⟩], false⟩,
   ⟨"dashed-ident", [], false⟩,
   ⟨"url", [⟨"allowed-modifiers", some ["crossorigin", "integrity", "referrerpolicy"]⟩], false⟩,
   ⟨"feature-tag-value", [], false⟩,
   ⟨"variation-tag-value", [], false⟩,
   ⟨"unicode-range-token", [], false⟩]

/-- Parameter validation of a builtin entry (the dynamically generated
consumer's init): unknown string parameters, duplicate parameters of one
descriptor, valueless or out-of-domain mapping values and unsupported
range parameters are errors. -/
def validate_builtin_parameters (e : BuiltinEntry) (ps : List RefParam) :
    Except String Unit := do
  let _ ← ps.foldlM
    (fun (used : List String) p =>
      match p with
      | .stringParam n v =>
        match e.stringParams.find? (fun sp => sp.name == n) with
        | none => .error ("Unknown parameter " ++ n ++ " passed to builtin " ++ e.name)
        | some sp =>
          if used.contains n then
            .error ("More than one parameter of type " ++ n ++ " passed to builtin " ++ e.name)
          else
            match sp.mappings with
            | some dom =>
              if v = [] then
                .error ("parameter " ++ n ++ " has no value associated with it")
              else if v.all (fun x => dom.contains x) then pure (n :: used)
              else .error ("parameter " ++ n ++ " does not match any of the supported mappings")
            | none => pure (n :: used)
      | .rangeParam _ _ =>
        if e.hasRange then
          if used.contains "value-range" then
            .error ("More than one parameter of type value-range passed to builtin " ++ e.name)
          else pure ("value-range" :: used)
        else .error ("Range parameters are not supported for builtin " ++ e.name))
    []
  pure ()

/-- Mirrors BuiltinSchema.validate_and_construct_if_builtin: returns
whether the name is a builtin, raising on invalid parameters of a
builtin. -/
def validate_and_construct_if_builtin (name : String) (ps : List RefParam) :
    Except String Bool :=
  match builtinSchema.find? (fun e => e.name == name) with
  | some e => do
    validate_builtin_parameters e ps
    pure true
  | none => pure false

/-- The minimum of a multiplier's repetition range (unset values would be
attribute errors in the source; they cannot arise from the parser). -/
def mult_range_min (m : NodeMultiplier) : Except String Int :=
  match m.range with
  | some r =>
    match r.min with
    | some v => pure v
    | none => .error "repetition modifier has no minimum"
  | none => .error "multiplier has no range"

/-- The maximum of a multiplier's repetition range. -/
def mult_range_max (m : NodeMultiplier) : Except String Int :=
  match m.range with
  | some r =>
    match r.max with
    | some v => pure v
    | none => .error "repetition modifier has no maximum"
  | none => .error "multiplier has no range"

/-- Mirrors Term.wrap_with_multiplier: chooses the wrapper term from the
multiplier kind, passing the multiplier's annotation to the wrapper's
constructor (whose _process_annotation validates it). -/
def Term.wrap_with_multiplier (m : NodeMultiplier) (t : Term) : Except String Term :=
  match m.kind with
  | some .zeroOrOne => do
    optional_process_annot m.annot
    pure (.optionalTerm t)
  | some .spaceZeroOrMore => do
    let (sf, _) ← process_annot_list_term false false m.annot
    pure (.unboundedRepetition t ' ' 0 sf)
  | some .spaceOneOrMore => do
    let (sf, _) ← process_annot_list_term false false m.annot
    pure (.unboundedRepetition t ' ' 1 sf)
  | some .spaceExact => do
    let (sf, dflt) ← process_annot_list_term false true m.annot
    let mn ← mult_range_min m
    pure (.boundedRepetition t ' ' mn mn dflt sf)
  | some .spaceAtLeast => do
    let (sf, _) ← process_annot_list_term false false m.annot
    let mn ← mult_range_min m
    pure (.unboundedRepetition t ' ' mn sf)
  | some .spaceBetween => do
    let (sf, dflt) ← process_annot_list_term false true m.annot
    let mn ← mult_range_min m
    let mx ← mult_range_max m
    pure (.boundedRepetition t ' ' mn mx dflt sf)
  | some .commaOneOrMore => do
    let (sf, _) ← process_annot_list_term false false m.annot
    pure (.unboundedRepetition t ',' 1 sf)
  | some .commaExact => do
    let (sf, dflt) ← process_annot_list_term false true m.annot
    let mn ← mult_range_min m
    pure (.boundedRepetition t ',' mn mn dflt sf)
  | some .commaAtLeast => do
    let (sf, _) ← process_annot_list_term false false m.annot
    let mn ← mult_range_min m
    pure (.unboundedRepetition t ',' mn sf)
  | some .commaBetween => do
    let (sf, dflt) ← process_annot_list_term false true m.annot
    let mn ← mult_range_min m
    let mx ← mult_range_max m
    pure (.boundedRepetition t ',' mn mx dflt sf)
  | none => .error "multiplier kind is unset"

/-- Applies the wrapper exactly when the node's multiplier has a kind
(the trailing step of Term.from_node). -/
def apply_node_multiplier (m : NodeMultiplier) (t : Term) : Except String Term :=
  match m.kind with
  | none => pure t
  | some _ => Term.wrap_with_multiplier m t

/-- Builds the grouping term from a kind, the converted member terms and
the grouping's annotation, mirroring the grouping branch of
Term.from_node: a single-member all-ordered grouping collapses to the
member's term (dropping the grouping's annotation), every other kind
builds its Term class, processing the annotation. -/
def make_group_term (kind : GroupingKind) (ts : List Term) (an : Option Annot) :
    Except String Term :=
  match kind with
  | .matchAllOrdered =>
    match ts with
    | [t] => pure t
    | _ => do
      let (sf, _) ← process_annot_list_term false false an
      pure (.matchAllOrdered ts sf)
  | .matchOne => do
    let sf ← process_annot_settings_only "grouping" an
    pure (.matchOne ts sf)
  | .matchAllAnyOrder => do
    let (sf, _) ← process_annot_list_term true false an
    pure (.matchAllAnyOrder ts sf)
  | .matchOneOrMoreAnyOrder => do
    let (sf, _) ← process_annot_list_term true false an
    pure (.matchOneOrMoreAnyOrder ts sf)

/-- Converts a parse-tree attribute to a reference parameter
(ReferenceTerm.Parameter.from_node). -/
def RefParam.from_attr : NodeAttr → RefParam
  | .strAttr n v => .stringParam n v
  | .rangeAttr mn mx => .rangeParam mn mx

mutual

/-- Mirrors Term.from_node: dispatch on the node class, convert members,
process annotations into the constructed Term, and wrap with the node's
multiplier when one is present.  A function node's parameter group is
converted exactly like a grouping node with no multiplier and no
annotation of its own, which is what the parser always produces for it. -/
def Term.from_node : BNFNode → Except String Term
  | .grouping kind members mult _ an => do
    let ts ← Term.from_node_list members
    let g ← make_group_term kind ts an
    apply_node_multiplier mult g
  | .functionNode name pk pm mult an => do
    let ts ← Term.from_node_list pm
    let pgt ← make_group_term pk ts none
    let sf ← process_annot_settings_only "function term" an
    apply_node_multiplier mult (.functionTerm name pgt sf)
  | .referenceNode name isInt isFn attrs mult an =>
    match name with
    | some nm => do
      let ps := attrs.map RefParam.from_attr
      let _ ← validate_and_construct_if_builtin nm ps
      let _ ← process_annot_settings_only "reference" an
      apply_node_multiplier mult (.reference nm isInt isFn ps an)
    | none => .error "reference node has no name"
  | .keywordNode kw mult an => do
    let (al, sf) ← keyword_process_annot an
    apply_node_multiplier mult (.keyword kw al sf none)
  | .literalNode v mult _ =>
    apply_node_multiplier mult (.literal v)

/-- Conversion of a member list (the source's compact_map never drops an
entry because from_node never returns None). -/
def Term.from_node_list : List BNFNode → Except String (List Term)
  | [] => pure []
  | n :: ns => do
    let t ← Term.from_node n
    let ts ← Term.from_node_list ns
    pure (t :: ts)

end

/-- Mirrors Grammar.from_string: parse the grammar string and convert the
root node. -/
def Grammar.from_string (name s : String) : Except String Grammar := do
  let node ← BNFParser.parse s
  let t ← Term.from_node node
  pure ⟨name, t⟩

/-! Claim theorems for the parser portion. -/

/-- C6: the first bare combinator at a nesting level locks the grouping
kind (transition to the term-required state with the kind set); a later
combinator of the same kind continues; a later combinator of a different
kind is a parse error naming the locked kind; the grammar string mixing
the one-of and one-or-more combinators fails to parse with exactly that
error. -/
theorem combinator_locking_spec :
    (∀ (kind : GroupingKind) (members : List BNFNode) (mult : NodeMultiplier)
       (ii : Bool) (an : Option Annot) (rest : List Frame) (mt : Bool)
       (att : Option AnnotTarget) (tok : Tok) (k : GroupingKind),
       combinatorForToken tok.name = some k →
       parserStep ⟨⟨.UNKNOWN_GROUPING_SEEN_TERM,
           .node (.grouping kind members mult ii an)⟩ :: rest, mt, att⟩ tok =
         .ok ⟨⟨.KNOWN_COMBINATOR_GROUPING_TERM_REQUIRED,
           .node (.grouping k members mult ii an)⟩ :: rest, false, none⟩) ∧
    (∀ (k : GroupingKind) (members : List BNFNode) (mult : NodeMultiplier)
       (ii : Bool) (an : Option Annot) (rest : List Frame) (mt : Bool)
       (att : Option AnnotTarget) (tok : Tok),
       combinatorForToken tok.name = some k →
       parserStep ⟨⟨.KNOWN_COMBINATOR_GROUPING_COMBINATOR_OR_CLOSE_REQUIRED,
           .node (.grouping k members mult ii an)⟩ :: rest, mt, att⟩ tok =
         .ok ⟨⟨.KNOWN_COMBINATOR_GROUPING_TERM_REQUIRED,
           .node (.grouping k members mult ii an)⟩ :: rest, false, none⟩) ∧
    (∀ (k : GroupingKind) (members : List BNFNode) (mult : NodeMultiplier)
       (ii : Bool) (an : Option Annot) (rest : List Frame) (mt : Bool)
       (att : Option AnnotTarget) (tok : Tok) (k2 : GroupingKind),
       combinatorForToken tok.name = some k2 → k2 ≠ k →
       parserStep ⟨⟨.KNOWN_COMBINATOR_GROUPING_COMBINATOR_OR_CLOSE_REQUIRED,
           .node (.grouping k members mult ii an)⟩ :: rest, mt, att⟩ tok =
         .error ("Unexpected token " ++ tok.value ++ ". Did you mean " ++
           k.enumName ++ " instead?")) ∧
    BNFParser.parse "<length> | <length> || <number>" =
      .error "Unexpected token ||. Did you mean MATCH_ONE instead?" := by
  refine ⟨?_, ?_, ?_, by rfl⟩
  · intro kind members mult ii an rest mt att tok k hc
    obtain ⟨nm, v⟩ := tok
    cases nm <;> simp [combinatorForToken] at hc <;>
      simp [parserStep, parse_UNKNOWN_GROUPING_SEEN_TERM, transition_top,
            process_combinator, set_combinator, combinatorForToken,
            isSupportedUnquotedLiteral, isSimpleMultiplier, BNFNode.set_kind,
            ← hc, pure, Except.pure, Bind.bind, Except.bind]
  · intro k members mult ii an rest mt att tok hc
    obtain ⟨nm, v⟩ := tok
    cases nm <;> simp [combinatorForToken] at hc <;>
      simp [parserStep, parse_KNOWN_COMBINATOR_GROUPING_COMBINATOR_OR_CLOSE_REQUIRED,
            transition_top, process_combinator, set_combinator, combinatorForToken,
            isSupportedUnquotedLiteral, isSimpleMultiplier, BNFNode.set_kind,
            BNFNode.get_kind, ← hc, pure, Except.pure, Bind.bind, Except.bind]
  · intro k members mult ii an rest mt att tok k2 hc hne
    obtain ⟨nm, v⟩ := tok
    cases nm <;> simp [combinatorForToken] at hc <;> subst hc <;>
      simp [parserStep, parse_KNOWN_COMBINATOR_GROUPING_COMBINATOR_OR_CLOSE_REQUIRED,
            transition_top, process_combinator, set_combinator, combinatorForToken,
            isSupportedUnquotedLiteral, isSimpleMultiplier, BNFNode.get_kind,
            Ne.symm hne]

/-- Concrete instantiation of combinator_locking_spec: locking MATCH_ONE
and then seeing the one-or-more combinator errors, naming the locked
kind. -/
theorem combinator_locking_spec_witness :
    parserStep ⟨[⟨.KNOWN_COMBINATOR_GROUPING_COMBINATOR_OR_CLOSE_REQUIRED,
        .node (.grouping .matchOne [] NodeMultiplier.empty true none)⟩], false, none⟩
      ⟨.OROR, "||"⟩ =
      .error "Unexpected token ||. Did you mean MATCH_ONE instead?" :=
  combinator_locking_spec.2.2.1 .matchOne [] NodeMultiplier.empty true none [] false none
    ⟨.OROR, "||"⟩ .matchOneOrMoreAnyOrder rfl (by simp)

/-- C7: a simple or counted multiplier refuses further stacking, the
comma multiplier composes with a following counted modifier into the
comma-separated counted kinds (and refuses simple tokens), and the
grammar string with a reference, the comma multiplier and a 2-to-4 range
converts to a comma-separated BoundedRepetition from 2 to 4 around the
reference. -/
theorem multiplier_stacking_spec :
    (∀ (m : NodeMultiplier) (input : MultInput) (k : MultKind),
       m.kind = some k →
       k ∈ [MultKind.zeroOrOne, MultKind.spaceZeroOrMore, MultKind.spaceOneOrMore,
            MultKind.spaceExact, MultKind.spaceAtLeast, MultKind.spaceBetween,
            MultKind.commaExact, MultKind.commaAtLeast, MultKind.commaBetween] →
       ∃ e, m.add input = .error e) ∧
    (∀ (m : NodeMultiplier) (r : RepMod) (rk : RepKind),
       m.kind = some .commaOneOrMore → m.annot = none → r.kind = some rk →
       m.add (.rep r) = .ok { m with
         kind := some (match rk with
           | .exact => MultKind.commaExact
           | .atLeast => MultKind.commaAtLeast
           | .between => MultKind.commaBetween),
         range := some r }) ∧
    (∀ (m : NodeMultiplier) (s : String),
       m.kind = some .commaOneOrMore → m.annot = none →
       ∃ e, m.add (.simple s) = .error e) ∧
    Grammar.from_string "g" "<foo>#{2,4}" =
      .ok ⟨"g", .boundedRepetition (.reference "foo" false false [] none) ',' 2 4 none none⟩ := by
  refine ⟨?_, ?_, ?_, ?_⟩
  · intro m input k hk hmem
    rw [NodeMultiplier.add.eq_def, hk]
    by_cases ha : m.annot.isSome
    · exact ⟨_, if_pos ha⟩
    · simp only [ha, Bool.false_eq_true, if_false]
      fin_cases hmem <;> exact ⟨_, rfl⟩
  · intro m r rk hk ha hr
    rw [NodeMultiplier.add.eq_def, hk, ha]
    cases rk <;> simp [hr, pure, Except.pure]
  · intro m s hk ha
    rw [NodeMultiplier.add.eq_def, hk, ha]
    exact ⟨_, rfl⟩
  · have hparse : BNFParser.parse "<foo>#{2,4}" =
        .ok (.grouping .matchAllOrdered
          [.referenceNode (some "foo") false false []
            ⟨some .commaBetween, some ⟨some .between, some 2, some 4⟩, none⟩ none]
          NodeMultiplier.empty true none) := by rfl
    rw [Grammar.from_string, hparse]
    simp only [Bind.bind, Except.bind]
    rw [Term.from_node, Term.from_node_list, Term.from_node]
    simp [Term.from_node_list, make_group_term, apply_node_multiplier,
          Term.wrap_with_multiplier, process_annot_list_term, mult_range_min,
          mult_range_max, validate_and_construct_if_builtin, builtinSchema,
          process_annot_settings_only, RefParam.from_attr, NodeMultiplier.empty,
          List.find?, Bind.bind, Except.bind, pure, Except.pure]

/-- Concrete instantiation of multiplier_stacking_spec: a question mark
multiplier refuses another multiplier. -/
theorem multiplier_stacking_spec_witness :
    ∃ e, NodeMultiplier.add ⟨some .zeroOrOne, none, none⟩ (.simple "?") = .error e :=
  multiplier_stacking_spec.1 ⟨some .zeroOrOne, none, none⟩ (.simple "?") .zeroOrOne rfl
    (by simp)

/-- C8 counterexample: conversion of a one-member MATCH_ONE grouping node
(with no annotation) produces a wrapping MatchOne term, not the member's
own conversion, so collapse does not happen for every combinator kind. -/
theorem single_member_grouping_counterexample :
    Term.from_node (.grouping .matchOne [.keywordNode "auto" NodeMultiplier.empty none]
        NodeMultiplier.empty false none) =
      .ok (.matchOne [.keyword "auto" none none none] none) ∧
    Term.from_node (.keywordNode "auto" NodeMultiplier.empty none) =
      .ok (.keyword "auto" none none none) ∧
    Term.matchOne [Term.keyword "auto" none none none] none ≠
      Term.keyword "auto" none none none := by
  refine ⟨?_, ?_, fun h => Term.noConfusion h⟩
  · rw [Term.from_node, Term.from_node_list, Term.from_node]
    simp [Term.from_node_list, make_group_term, process_annot_settings_only,
          keyword_process_annot, apply_node_multiplier, NodeMultiplier.empty,
          Bind.bind, Except.bind, pure, Except.pure]
  · rw [Term.from_node]
    simp [keyword_process_annot, apply_node_multiplier, NodeMultiplier.empty,
          Bind.bind, Except.bind, pure, Except.pure]

/-- C8 (amended to the all-ordered kind): conversion of an all-ordered
grouping node with exactly one member and no annotation is the member's
own conversion with the grouping's multiplier, when present, applied on
top. -/
theorem single_member_ordered_grouping_spec (m : BNFNode) (mult : NodeMultiplier)
    (isInit : Bool) :
    Term.from_node (.grouping .matchAllOrdered [m] mult isInit none) =
      (do
        let t ← Term.from_node m
        apply_node_multiplier mult t) := by
  rw [Term.from_node, Term.from_node_list, Term.from_node_list]
  cases h : Term.from_node m with
  | error e => simp [Bind.bind, Except.bind]
  | ok t => simp [Bind.bind, Except.bind, make_group_term, pure, Except.pure]

/-- C10: conversion of a one-member all-ordered grouping node that
carries an annotation still collapses to the member's conversion and
silently discards the annotation (the result is the same as without the
annotation, with no error); in particular a settings-flag annotation on
such a grouping leaves no flag on the resulting term. -/
theorem single_member_annot_discarded_spec (m : BNFNode) (mult : NodeMultiplier)
    (isInit : Bool) (an : Annot) :
    Term.from_node (.grouping .matchAllOrdered [m] mult isInit (some an)) =
      Term.from_node (.grouping .matchAllOrdered [m] mult isInit none) ∧
    Term.from_node (.grouping .matchAllOrdered
        [.keywordNode "auto" NodeMultiplier.empty none] NodeMultiplier.empty false
        (some ⟨[⟨"settings-flag", ["cssExampleFlag"]⟩]⟩)) =
      .ok (.keyword "auto" none none none) := by
  constructor
  · rw [Term.from_node, Term.from_node]
    rw [Term.from_node_list, Term.from_node_list]
    cases h : Term.from_node m with
    | error e => simp [Bind.bind, Except.bind]
    | ok t => simp [Bind.bind, Except.bind, make_group_term, pure, Except.pure]
  · rw [Term.from_node, Term.from_node_list, Term.from_node]
    simp [Term.from_node_list, make_group_term, keyword_process_annot,
          apply_node_multiplier, NodeMultiplier.empty,
          Bind.bind, Except.bind, pure, Except.pure]

end CSSGen
